import Mathlib

/-!
Verification development for the `mcp-server-gemini` stdio protocol servers
(`src/enhanced-stdio-server.ts`, `src/stdio-server.ts`).

The TypeScript sources are shallowly embedded:
* JSON values are the mutual inductives `Json`/`JsonList`/`JsonFields`
  (mutual rather than nested so that all recursion is structural and
  kernel-computable); numbers are integers.
* `JSON.stringify` is `stringifyJ`; `JSON.parse` is the fueled parser
  `parseJ`/`parseTop` (both model the platform JSON codec, which is not
  part of the repository).
* The provider SDK (`@google/genai`) is an external collaborator: it is
  modelled as an `Oracle` of functions from the request shapes the server
  builds to `Except`-valued results.
* Stateful pieces (the `conversations` map) are threaded explicitly.
-/

mutual

/-- JSON value: mutual with `JsonList`/`JsonFields` so that recursion over it
is structural. Numbers are embedded as integers (the envelopes the server
emits carry only integral numbers). -/
inductive Json where
  | null : Json
  | bool : Bool → Json
  | num : Int → Json
  | str : String → Json
  | arr : JsonList → Json
  | obj : JsonFields → Json

inductive JsonList where
  | nil : JsonList
  | cons : Json → JsonList → JsonList

inductive JsonFields where
  | nil : JsonFields
  | cons : String → Json → JsonFields → JsonFields

end

/-- Convert an ordinary list of values into a `JsonList`. -/
def JsonList.ofList : List Json → JsonList
  | [] => .nil
  | x :: xs => .cons x (JsonList.ofList xs)

/-- Convert an ordinary association list into `JsonFields`. -/
def JsonFields.ofList : List (String × Json) → JsonFields
  | [] => .nil
  | (k, v) :: xs => .cons k v (JsonFields.ofList xs)

/-- Array literal helper. -/
def jArr (l : List Json) : Json := .arr (JsonList.ofList l)

/-- Object literal helper. -/
def jObj (l : List (String × Json)) : Json := .obj (JsonFields.ofList l)

mutual

/-- Boolean equality on `Json` (used to derive decidable equality). -/
def beqJ : Json → Json → Bool
  | .null, .null => true
  | .bool a, .bool b => a == b
  | .num a, .num b => a == b
  | .str a, .str b => a == b
  | .arr a, .arr b => beqL a b
  | .obj a, .obj b => beqF a b
  | _, _ => false

/-- Boolean equality on `JsonList`. -/
def beqL : JsonList → JsonList → Bool
  | .nil, .nil => true
  | .cons x xs, .cons y ys => beqJ x y && beqL xs ys
  | _, _ => false

/-- Boolean equality on `JsonFields`. -/
def beqF : JsonFields → JsonFields → Bool
  | .nil, .nil => true
  | .cons k v xs, .cons k2 v2 ys => k == k2 && beqJ v v2 && beqF xs ys
  | _, _ => false

end

mutual

/-- `beqJ` decides equality of JSON values (a proof-producing definition so
that the decidability instances below remain in the definition section). -/
def beqJ_iff : ∀ (a b : Json), (beqJ a b = true) ↔ a = b
  | .null, b => by cases b <;> simp [beqJ]
  | .bool x, b => by cases b <;> simp [beqJ]
  | .num x, b => by cases b <;> simp [beqJ]
  | .str x, b => by cases b <;> simp [beqJ]
  | .arr x, b => by cases b <;> simp [beqJ, beqL_iff x]
  | .obj x, b => by cases b <;> simp [beqJ, beqF_iff x]

/-- `beqL` decides equality of JSON lists. -/
def beqL_iff : ∀ (a b : JsonList), (beqL a b = true) ↔ a = b
  | .nil, b => by cases b <;> simp [beqL]
  | .cons x xs, b => by cases b <;> simp [beqL, beqJ_iff x, beqL_iff xs]

/-- `beqF` decides equality of JSON object fields. -/
def beqF_iff : ∀ (a b : JsonFields), (beqF a b = true) ↔ a = b
  | .nil, b => by cases b <;> simp [beqF]
  | .cons k v xs, b => by cases b <;> simp [beqF, beqJ_iff v, beqF_iff xs, and_assoc]

end

instance : DecidableEq Json := fun a b => decidable_of_iff _ (beqJ_iff a b)

instance : DecidableEq JsonList := fun a b => decidable_of_iff _ (beqL_iff a b)

instance : DecidableEq JsonFields := fun a b => decidable_of_iff _ (beqF_iff a b)

/-- Decimal digit test (ASCII `0`-`9`). -/
def isDigitC (c : Char) : Bool := 48 ≤ c.toNat && c.toNat ≤ 57

/-- The ASCII digit character for `n < 10`. -/
def digitChar (n : Nat) : Char := Char.ofNat (48 + n)

/-- Lowercase hexadecimal digit character for `n < 16`. -/
def hexDig (n : Nat) : Char := if n < 10 then Char.ofNat (48 + n) else Char.ofNat (87 + n)

/-- Fueled decimal rendering worker (fuel keeps recursion structural, so the
kernel can evaluate it inside `decide`/`rfl` proofs). -/
def natCharsGo : Nat → Nat → List Char → List Char
  | 0, _, acc => acc
  | f + 1, n, acc =>
    if n < 10 then digitChar n :: acc
    else natCharsGo f (n / 10) (digitChar (n % 10) :: acc)

/-- Decimal rendering of a natural number, as JavaScript prints integers. -/
def natChars (n : Nat) : List Char := natCharsGo (n + 1) n []

/-- Numeric value of a list of decimal digit characters (what
`parseInt(·, 10)` computes on an all-digit string). -/
def digitsVal (ds : List Char) : Nat := ds.foldl (fun a c => a * 10 + (c.toNat - 48)) 0

/-- `JSON.stringify` escaping of one string character: quote, backslash and
the shorthand control escapes, `\u00xx` for the remaining control
characters, everything else (including non-ASCII) verbatim. -/
def escChar (c : Char) : List Char :=
  if c = '"' then ['\\', '"']
  else if c = '\\' then ['\\', '\\']
  else if c = '\n' then ['\\', 'n']
  else if c = '\r' then ['\\', 'r']
  else if c = '\t' then ['\\', 't']
  else if c = '\x08' then ['\\', 'b']
  else if c = '\x0c' then ['\\', 'f']
  else if c.toNat < 32 then ['\\', 'u', '0', '0', hexDig (c.toNat / 16), hexDig (c.toNat % 16)]
  else [c]

/-- Escaped rendering of a string body. -/
def jstr : List Char → List Char
  | [] => []
  | c :: cs => escChar c ++ jstr cs

mutual

/-- Compact `JSON.stringify` (no whitespace), as used by `sendResponse`. -/
def stringifyJ : Json → List Char
  | .null => ("null").data
  | .bool true => ("true").data
  | .bool false => ("false").data
  | .num i => if i < 0 then '-' :: natChars i.natAbs else natChars i.natAbs
  | .str s => '"' :: (jstr s.data ++ ['"'])
  | .arr .nil => ['[', ']']
  | .arr (.cons x xs) => '[' :: (stringifyJ x ++ stringifyL xs ++ [']'])
  | .obj .nil => ['{', '}']
  | .obj (.cons k v fs) =>
    '{' :: '"' :: (jstr k.data ++ '"' :: ':' :: (stringifyJ v ++ stringifyF fs ++ ['}']))

/-- Remaining array elements, each preceded by a comma. -/
def stringifyL : JsonList → List Char
  | .nil => []
  | .cons x xs => ',' :: (stringifyJ x ++ stringifyL xs)

/-- Remaining object members, each preceded by a comma. -/
def stringifyF : JsonFields → List Char
  | .nil => []
  | .cons k v fs => ',' :: '"' :: (jstr k.data ++ '"' :: ':' :: (stringifyJ v ++ stringifyF fs))

end

/-- Compact `JSON.stringify` as a `String`. -/
def stringifyText (j : Json) : String := String.mk (stringifyJ j)

/-- Indentation for `JSON.stringify(·, null, 2)`: two spaces per level. -/
def indentChars (d : Nat) : List Char := List.replicate (2 * d) ' '

mutual

/-- Pretty `JSON.stringify(·, null, 2)` at nesting depth `d` (used only by
the `list_models` handler, which embeds a pretty-printed catalog). -/
def pretJ : Nat → Json → List Char
  | _, .null => stringifyJ .null
  | _, .bool b => stringifyJ (.bool b)
  | _, .num i => stringifyJ (.num i)
  | _, .str s => stringifyJ (.str s)
  | _, .arr .nil => ['[', ']']
  | d, .arr (.cons x xs) =>
    '[' :: '\n' :: (indentChars (d + 1) ++ pretJ (d + 1) x ++ pretL (d + 1) xs
      ++ '\n' :: (indentChars d ++ [']']))
  | _, .obj .nil => ['{', '}']
  | d, .obj (.cons k v fs) =>
    '{' :: '\n' :: (indentChars (d + 1) ++ '"' :: (jstr k.data ++ '"' :: ':' :: ' ' ::
      (pretJ (d + 1) v ++ pretF (d + 1) fs ++ '\n' :: (indentChars d ++ ['}']))))

/-- Remaining pretty array elements. -/
def pretL : Nat → JsonList → List Char
  | _, .nil => []
  | d, .cons x xs => ',' :: '\n' :: (indentChars d ++ pretJ d x ++ pretL d xs)

/-- Remaining pretty object members. -/
def pretF : Nat → JsonFields → List Char
  | _, .nil => []
  | d, .cons k v fs =>
    ',' :: '\n' :: (indentChars d ++ '"' :: (jstr k.data ++ '"' :: ':' :: ' ' ::
      (pretJ d v ++ pretF d fs)))

end

/-- Pretty `JSON.stringify(·, null, 2)` as a `String`. -/
def prettyText (j : Json) : String := String.mk (pretJ 0 j)

/-- JSON whitespace accepted by `JSON.parse`. -/
def isJsonWs (c : Char) : Bool := c = ' ' || c = '\t' || c = '\n' || c = '\r'

/-- Drop leading JSON whitespace. -/
def skipWs : List Char → List Char
  | [] => []
  | c :: cs => if isJsonWs c then skipWs cs else c :: cs

/-- Value of one hexadecimal digit character. -/
def parseHex (c : Char) : Option Nat :=
  if 48 ≤ c.toNat && c.toNat ≤ 57 then some (c.toNat - 48)
  else if 97 ≤ c.toNat && c.toNat ≤ 102 then some (c.toNat - 87)
  else if 65 ≤ c.toNat && c.toNat ≤ 70 then some (c.toNat - 55)
  else none

/-- A character from a `\uXXXX` code point, when it is a scalar value. -/
def charFromCode (n : Nat) : Option Char :=
  if n < 55296 then some (Char.ofNat n)
  else if 57343 < n && n < 1114112 then some (Char.ofNat n)
  else none

/-- Decode one shorthand string escape. -/
def escDecode (e : Char) : Option Char :=
  if e = '"' then some '"'
  else if e = '\\' then some '\\'
  else if e = '/' then some '/'
  else if e = 'n' then some '\n'
  else if e = 'r' then some '\r'
  else if e = 't' then some '\t'
  else if e = 'b' then some '\x08'
  else if e = 'f' then some '\x0c'
  else none

/-- Parse a JSON string body after the opening quote: returns the decoded
characters and the input after the closing quote. Raw control characters
are rejected, as `JSON.parse` rejects them. -/
def parseStrChars : List Char → Option (List Char × List Char)
  | [] => none
  | c :: rest =>
    if c = '"' then some ([], rest)
    else if c = '\\' then
      match rest with
      | [] => none
      | e :: r2 =>
        if e = 'u' then
          match r2 with
          | h1 :: h2 :: h3 :: h4 :: r =>
            match parseHex h1, parseHex h2, parseHex h3, parseHex h4 with
            | some a, some b, some c2, some d =>
              match charFromCode (((a * 16 + b) * 16 + c2) * 16 + d) with
              | some ch => (parseStrChars r).map (fun p => (ch :: p.1, p.2))
              | none => none
            | _, _, _, _ => none
          | _ => none
        else
          match escDecode e with
          | some ch => (parseStrChars r2).map (fun p => (ch :: p.1, p.2))
          | none => none
    else if c.toNat < 32 then none
    else (parseStrChars rest).map (fun p => (c :: p.1, p.2))

/-- Greedy run of decimal digits, as `(\d+)` or a JSON integer literal. -/
def parseDigits (cs : List Char) : Option (Nat × List Char) :=
  let ds := cs.takeWhile isDigitC
  if ds.isEmpty then none else some (digitsVal ds, cs.dropWhile isDigitC)

mutual

/-- Fueled recursive-descent JSON value parser (integer numbers only — the
fragment `stringifyJ` produces). Models `JSON.parse`. -/
def parseJ : Nat → List Char → Option (Json × List Char)
  | 0, _ => none
  | f + 1, cs =>
    match skipWs cs with
    | [] => none
    | c :: rest =>
      if c = '{' then
        match skipWs rest with
        | [] => none
        | c2 :: r2 =>
          if c2 = '}' then some (Json.obj .nil, r2)
          else if c2 = '"' then
            match parseStrChars r2 with
            | some (k, r3) =>
              match skipWs r3 with
              | [] => none
              | c3 :: r4 =>
                if c3 = ':' then
                  match parseJ f r4 with
                  | some (v, r5) => parseObjTail f [(String.mk k, v)] r5
                  | none => none
                else none
            | none => none
          else none
      else if c = '[' then
        match skipWs rest with
        | [] => none
        | c2 :: r2 =>
          if c2 = ']' then some (Json.arr .nil, r2)
          else
            match parseJ f (c2 :: r2) with
            | some (v, r3) => parseArrTail f [v] r3
            | none => none
      else if c = '"' then
        (parseStrChars rest).map (fun p => (Json.str (String.mk p.1), p.2))
      else if c = 'n' then
        match rest with
        | u :: l1 :: l2 :: r =>
          if u = 'u' && l1 = 'l' && l2 = 'l' then some (Json.null, r) else none
        | _ => none
      else if c = 't' then
        match rest with
        | r1 :: u :: e1 :: r =>
          if r1 = 'r' && u = 'u' && e1 = 'e' then some (Json.bool true, r) else none
        | _ => none
      else if c = 'f' then
        match rest with
        | a1 :: l1 :: s1 :: e1 :: r =>
          if a1 = 'a' && l1 = 'l' && s1 = 's' && e1 = 'e' then some (Json.bool false, r)
          else none
        | _ => none
      else if c = '-' then
        (parseDigits rest).map (fun p => (Json.num (-(p.1 : Int)), p.2))
      else if isDigitC c then
        (parseDigits (c :: rest)).map (fun p => (Json.num (p.1 : Int), p.2))
      else none

/-- Array elements after the first: `, value`* then `]`. -/
def parseArrTail : Nat → List Json → List Char → Option (Json × List Char)
  | 0, _, _ => none
  | f + 1, acc, cs =>
    match skipWs cs with
    | [] => none
    | c :: r =>
      if c = ',' then
        match parseJ f r with
        | some (v, r2) => parseArrTail f (acc ++ [v]) r2
        | none => none
      else if c = ']' then some (jArr acc, r)
      else none

/-- Object members after the first: `, "key": value`* then `}`. -/
def parseObjTail : Nat → List (String × Json) → List Char → Option (Json × List Char)
  | 0, _, _ => none
  | f + 1, acc, cs =>
    match skipWs cs with
    | [] => none
    | c :: r =>
      if c = ',' then
        match skipWs r with
        | [] => none
        | c1 :: r1 =>
          if c1 = '"' then
            match parseStrChars r1 with
            | some (k, r2) =>
              match skipWs r2 with
              | [] => none
              | c2 :: r3 =>
                if c2 = ':' then
                  match parseJ f r3 with
                  | some (v, r4) => parseObjTail f (acc ++ [(String.mk k, v)]) r4
                  | none => none
                else none
            | none => none
          else none
      else if c = '}' then some (jObj acc, r)
      else none

end

/-- `JSON.parse` on a whole string: one value, then only whitespace. -/
def parseTop (s : String) : Option Json :=
  match parseJ (s.data.length + 1) s.data with
  | some (v, rest) => if (skipWs rest).isEmpty then some v else none
  | none => none

/-- JSON-RPC error object (`code` plus `message`; the server never sets `data`). -/
structure ErrObj where
  code : Int
  message : String
deriving DecidableEq

/-- The TS `MCPResponse`: `jsonrpc` is the constant `"2.0"` (added when
serializing); `id` mirrors the request's; `result`/`error` are optional
fields, `none` playing `undefined`. -/
structure MCPResponse where
  id : Option Json
  result : Option Json := none
  error : Option ErrObj := none
deriving DecidableEq

/-- A `{jsonrpc, id, result}` literal. -/
def mkResult (rid : Option Json) (r : Json) : MCPResponse := { id := rid, result := some r }

/-- A `{jsonrpc, id, error}` literal. -/
def mkError (rid : Option Json) (code : Int) (msg : String) : MCPResponse :=
  { id := rid, error := some { code := code, message := msg } }

/-- The error object as JSON. -/
def errToJson (e : ErrObj) : Json := jObj [("code", .num e.code), ("message", .str e.message)]

/-- The response envelope as the JSON value `JSON.stringify` serializes:
`undefined` (absent) fields are dropped, present fields keep literal order. -/
def respToJson (r : MCPResponse) : Json :=
  jObj ([("jsonrpc", Json.str ("2.0"))]
    ++ (match r.id with | some j => [("id", j)] | none => [])
    ++ (match r.result with | some j => [("result", j)] | none => [])
    ++ (match r.error with | some e => [("error", errToJson e)] | none => []))

/-- One entry of the `GEMINI_MODELS` literal. The `thinking` key is absent on
models that do not declare it (`none`). -/
structure ModelInfo where
  description : String
  features : List String
  contextWindow : Int
  thinking : Option Bool := none
deriving DecidableEq

/-- The static model catalog, in object-literal order. -/
def GEMINI_MODELS : List (String × ModelInfo) := [
  ("gemini-2.5-pro",
    { description := "Most capable thinking model, best for complex reasoning and coding",
      features := ["thinking", "function_calling", "json_mode", "grounding", "system_instructions"],
      contextWindow := 2000000, thinking := some true }),
  ("gemini-2.5-flash",
    { description := "Fast thinking model with best price/performance ratio",
      features := ["thinking", "function_calling", "json_mode", "grounding", "system_instructions"],
      contextWindow := 1000000, thinking := some true }),
  ("gemini-2.5-flash-lite",
    { description := "Ultra-fast, cost-efficient thinking model for high-throughput tasks",
      features := ["thinking", "function_calling", "json_mode", "system_instructions"],
      contextWindow := 1000000, thinking := some true }),
  ("gemini-2.0-flash",
    { description := "Fast, efficient model with 1M context window",
      features := ["function_calling", "json_mode", "grounding", "system_instructions"],
      contextWindow := 1000000 }),
  ("gemini-2.0-flash-lite",
    { description := "Most cost-efficient model for simple tasks",
      features := ["function_calling", "json_mode", "system_instructions"],
      contextWindow := 1000000 }),
  ("gemini-2.0-pro-experimental",
    { description := "Experimental model with 2M context, excellent for coding",
      features := ["function_calling", "json_mode", "grounding", "system_instructions"],
      contextWindow := 2000000 }),
  ("gemini-1.5-pro",
    { description := "Previous generation pro model",
      features := ["function_calling", "json_mode", "system_instructions"],
      contextWindow := 2000000 }),
  ("gemini-1.5-flash",
    { description := "Previous generation fast model",
      features := ["function_calling", "json_mode", "system_instructions"],
      contextWindow := 1000000 })]

/-- `GEMINI_MODELS[model]` key lookup. -/
def lookupModel (m : String) : Option ModelInfo :=
  (GEMINI_MODELS.find? (fun p => p.1 == m)).map (fun p => p.2)

/-- Inline image data sent to the provider. -/
structure InlineData where
  mimeType : String
  data : String
deriving DecidableEq

/-- One content part; either a text part or an inline-data part. -/
structure MsgPart where
  text : Option String := none
  inlineData : Option InlineData := none
deriving DecidableEq

/-- One conversation turn: optional role plus parts. The `analyze_image`
handler can place an `undefined` element in `parts`, hence `Option MsgPart`. -/
structure Content where
  role : Option String := none
  parts : List (Option MsgPart) := []
deriving DecidableEq

/-- The `conversations` map: association list keyed by conversation id,
in insertion order (JavaScript `Map` semantics). -/
abbrev ConvMap := List (String × List Content)

/-- `conversations.get(k)`. -/
def getConv (m : ConvMap) (k : String) : Option (List Content) :=
  (m.find? (fun p => p.1 == k)).map (fun p => p.2)

/-- `conversations.set(k, v)`: replace in place, or append a new key. -/
def setConv : ConvMap → String → List Content → ConvMap
  | [], k, v => [(k, v)]
  | (k2, v2) :: rest, k, v =>
    if k2 = k then (k, v) :: rest else (k2, v2) :: setConv rest k v

/-- `generationConfig` the `generate_text` handler builds. -/
structure GenConfig where
  temperature : ℚ
  maxOutputTokens : ℚ
  topK : ℚ
  topP : ℚ
  responseMimeType : Option String := none
  responseSchema : Option Json := none
deriving DecidableEq

/-- The request body passed to `genAI.models.generateContent` by
`generate_text` (`tools: [{googleSearch: {}}]` abridged to a flag). -/
structure GenRequest where
  model : String
  contents : List Content
  generationConfig : GenConfig
  systemInstruction : Option Content := none
  safetySettings : Option Json := none
  useGoogleSearch : Bool := false
deriving DecidableEq

/-- The request `analyze_image` passes to `generateContent` (no config). -/
structure VisionRequest where
  model : String
  contents : List Content
deriving DecidableEq

/-- The request `count_tokens` passes to `countTokens`. -/
structure CountRequest where
  model : String
  contents : List Content
deriving DecidableEq

/-- The request `embed_text` passes to `embedContent` (`contents` is the
raw text argument). -/
structure EmbedRequest where
  model : String
  contents : Option String
deriving DecidableEq

/-- `usageMetadata` of a provider result. -/
structure UsageMeta where
  totalTokenCount : Option Int := none
deriving DecidableEq

/-- One provider candidate. -/
structure Cand where
  finishReason : Option String := none
deriving DecidableEq

/-- A successful `generateContent` result, with the fields the server reads. -/
structure GenOk where
  text : Option String := none
  usageMetadata : Option UsageMeta := none
  candidates : Option (List Cand) := none
deriving DecidableEq

/-- A successful `countTokens` result. -/
structure CountOk where
  totalTokens : Option Int := none
deriving DecidableEq

/-- One embedding of an `embedContent` result. -/
structure EmbedItem where
  values : Option (List Json) := none
deriving DecidableEq

/-- A successful `embedContent` result. -/
structure EmbedOk where
  embeddings : Option (List EmbedItem) := none
deriving DecidableEq

/-- The provider SDK as an external collaborator: each operation maps the
request the server builds to a result or a thrown error message. -/
structure Oracle where
  genCall : GenRequest → Except String GenOk
  visionCall : VisionRequest → Except String GenOk
  countCall : CountRequest → Except String CountOk
  embedCall : EmbedRequest → Except String EmbedOk

/-- The untyped `arguments` object of a `tools/call`, with every field the
handlers read. Numeric knobs are rationals (they are passed through opaquely). -/
structure ToolArgs where
  prompt : Option String := none
  model : Option String := none
  systemInstruction : Option String := none
  temperature : Option ℚ := none
  maxTokens : Option ℚ := none
  topK : Option ℚ := none
  topP : Option ℚ := none
  jsonMode : Option Bool := none
  jsonSchema : Option Json := none
  grounding : Option Bool := none
  safetySettings : Option Json := none
  conversationId : Option String := none
  imageUrl : Option String := none
  imageBase64 : Option String := none
  text : Option String := none
  filter : Option String := none
deriving DecidableEq

/-- `request.params` of a `tools/call`. -/
structure MCPParams where
  name : Option String := none
  arguments : Option ToolArgs := none
deriving DecidableEq

/-- The TS `MCPRequest`: `id` is absent for notifications (`none`), and may
be any JSON value (string, number, or null) when present. -/
structure MCPRequest where
  id : Option Json := none
  method : String
  params : Option MCPParams := none
deriving DecidableEq

/-- JavaScript `x || d` on an optional string (`undefined` and `""` falsy). -/
def strOr (v : Option String) (d : String) : String :=
  match v with
  | some s => if s = "" then d else s
  | none => d

/-- JavaScript truthiness of an optional string. -/
def strTruthy (v : Option String) : Bool :=
  match v with
  | some s => !(s == "")
  | none => false

/-- JavaScript truthiness of an optional boolean. -/
def boolTruthy (v : Option Bool) : Bool := v.getD false

/-- JavaScript truthiness of an optional JSON value. -/
def jsonTruthy (v : Option Json) : Bool :=
  match v with
  | none => false
  | some .null => false
  | some (.bool b) => b
  | some (.num i) => !(i == 0)
  | some (.str s) => !(s == "")
  | some _ => true

/-- JavaScript `x || d` on an optional numeric knob (`undefined` and `0` falsy). -/
def ratOr (v : Option ℚ) (d : ℚ) : ℚ :=
  match v with
  | some q => if q = 0 then d else q
  | none => d

/-- Template-literal rendering of a possibly-`undefined` string. -/
def showOptStr (v : Option String) : String := v.getD ("undefined")

/-- Template-literal rendering of a possibly-`undefined` integer. -/
def showOptInt (v : Option Int) : String :=
  match v with
  | some i => if i < 0 then String.mk ('-' :: natChars i.natAbs) else String.mk (natChars i.natAbs)
  | none => "undefined"

/-- The `initialize` result literal. -/
def initResultJson : Json :=
  jObj [("protocolVersion", .str "2024-11-05"),
    ("serverInfo", jObj [("name", .str "mcp-server-gemini-enhanced"), ("version", .str "4.0.0")]),
    ("capabilities", jObj [("tools", jObj []), ("resources", jObj []), ("prompts", jObj [])])]

/-- The `generate_text` tool descriptor. Modelling note: the embedded JSON
fragment carries integers only, so the two fractional advisory constants of
the source schema (`temperature.default` and `topP.default`) are elided
from this static literal; no claim concerns them. -/
def generateTextTool : Json :=
  jObj [("name", .str "generate_text"),
    ("description", .str "Generate text using Google Gemini with advanced features"),
    ("inputSchema", jObj [
      ("type", .str "object"),
      ("properties", jObj [
        ("prompt", jObj [("type", .str "string"),
          ("description", .str "The prompt to send to Gemini")]),
        ("model", jObj [("type", .str "string"),
          ("description", .str "Specific Gemini model to use"),
          ("enum", jArr (GEMINI_MODELS.map (fun p => Json.str p.1))),
          ("default", .str "gemini-2.5-flash")]),
        ("systemInstruction", jObj [("type", .str "string"),
          ("description", .str "System instruction to guide model behavior")]),
        ("temperature", jObj [("type", .str "number"),
          ("description", .str "Temperature for generation (0-2)"),
          ("minimum", .num 0), ("maximum", .num 2)]),
        ("maxTokens", jObj [("type", .str "number"),
          ("description", .str "Maximum tokens to generate"), ("default", .num 2048)]),
        ("topK", jObj [("type", .str "number"),
          ("description", .str "Top-k sampling parameter"), ("default", .num 40)]),
        ("topP", jObj [("type", .str "number"),
          ("description", .str "Top-p (nucleus) sampling parameter")]),
        ("jsonMode", jObj [("type", .str "boolean"),
          ("description", .str "Enable JSON mode for structured output"),
          ("default", .bool false)]),
        ("jsonSchema", jObj [("type", .str "object"),
          ("description", .str "JSON schema for structured output (when jsonMode is true)")]),
        ("grounding", jObj [("type", .str "boolean"),
          ("description", .str "Enable Google Search grounding for up-to-date information"),
          ("default", .bool false)]),
        ("safetySettings", jObj [("type", .str "array"),
          ("description", .str "Safety settings for content filtering"),
          ("items", jObj [("type", .str "object"),
            ("properties", jObj [
              ("category", jObj [("type", .str "string"),
                ("enum", jArr [.str "HARM_CATEGORY_HARASSMENT", .str "HARM_CATEGORY_HATE_SPEECH",
                  .str "HARM_CATEGORY_SEXUALLY_EXPLICIT", .str "HARM_CATEGORY_DANGEROUS_CONTENT"])]),
              ("threshold", jObj [("type", .str "string"),
                ("enum", jArr [.str "BLOCK_NONE", .str "BLOCK_ONLY_HIGH",
                  .str "BLOCK_MEDIUM_AND_ABOVE", .str "BLOCK_LOW_AND_ABOVE"])])])])]),
        ("conversationId", jObj [("type", .str "string"),
          ("description", .str "ID for maintaining conversation context")])]),
      ("required", jArr [.str "prompt"])])]

/-- The `analyze_image` tool descriptor. -/
def analyzeImageTool : Json :=
  jObj [("name", .str "analyze_image"),
    ("description", .str "Analyze images using Gemini vision capabilities"),
    ("inputSchema", jObj [
      ("type", .str "object"),
      ("properties", jObj [
        ("prompt", jObj [("type", .str "string"),
          ("description", .str "Question or instruction about the image")]),
        ("imageUrl", jObj [("type", .str "string"),
          ("description", .str "URL of the image to analyze")]),
        ("imageBase64", jObj [("type", .str "string"),
          ("description", .str "Base64-encoded image data (alternative to URL)")]),
        ("model", jObj [("type", .str "string"),
          ("description", .str "Vision-capable Gemini model"),
          ("enum", jArr [.str "gemini-2.5-pro", .str "gemini-2.5-flash", .str "gemini-2.0-flash"]),
          ("default", .str "gemini-2.5-flash")])]),
      ("required", jArr [.str "prompt"]),
      ("oneOf", jArr [jObj [("required", jArr [.str "imageUrl"])],
        jObj [("required", jArr [.str "imageBase64"])]])])]

/-- The `count_tokens` tool descriptor. -/
def countTokensTool : Json :=
  jObj [("name", .str "count_tokens"),
    ("description", .str "Count tokens for a given text with a specific model"),
    ("inputSchema", jObj [
      ("type", .str "object"),
      ("properties", jObj [
        ("text", jObj [("type", .str "string"),
          ("description", .str "Text to count tokens for")]),
        ("model", jObj [("type", .str "string"),
          ("description", .str "Model to use for token counting"),
          ("enum", jArr (GEMINI_MODELS.map (fun p => Json.str p.1))),
          ("default", .str "gemini-2.5-flash")])]),
      ("required", jArr [.str "text"])])]

/-- The `list_models` tool descriptor. -/
def listModelsTool : Json :=
  jObj [("name", .str "list_models"),
    ("description", .str "List all available Gemini models and their capabilities"),
    ("inputSchema", jObj [
      ("type", .str "object"),
      ("properties", jObj [
        ("filter", jObj [("type", .str "string"),
          ("description", .str "Filter models by capability"),
          ("enum", jArr [.str "all", .str "thinking", .str "vision", .str "grounding",
            .str "json_mode"])])])])]

/-- The `embed_text` tool descriptor. -/
def embedTextTool : Json :=
  jObj [("name", .str "embed_text"),
    ("description", .str "Generate embeddings for text using Gemini embedding models"),
    ("inputSchema", jObj [
      ("type", .str "object"),
      ("properties", jObj [
        ("text", jObj [("type", .str "string"),
          ("description", .str "Text to generate embeddings for")]),
        ("model", jObj [("type", .str "string"),
          ("description", .str "Embedding model to use"),
          ("enum", jArr [.str "text-embedding-004", .str "text-multilingual-embedding-002"]),
          ("default", .str "text-embedding-004")])]),
      ("required", jArr [.str "text"])])]

/-- The `tools/list` result. -/
def toolsListJson : Json :=
  jObj [("tools", jArr [generateTextTool, analyzeImageTool, countTokensTool,
    listModelsTool, embedTextTool])]

/-- The `resources/list` result. -/
def resourcesListJson : Json :=
  jObj [("resources", jArr [
    jObj [("uri", .str "gemini://models"),
      ("name", .str "Available Gemini Models"),
      ("description", .str "List of all available Gemini models and their capabilities"),
      ("mimeType", .str "application/json")],
    jObj [("uri", .str "gemini://capabilities"),
      ("name", .str "API Capabilities"),
      ("description", .str "Detailed information about Gemini API capabilities"),
      ("mimeType", .str "text/markdown")]])]

/-- One prompt-argument descriptor. -/
def promptArgJson (nm desc : String) (req : Bool) : Json :=
  jObj [("name", .str nm), ("description", .str desc), ("required", .bool req)]

/-- The `prompts/list` result. -/
def promptsListJson : Json :=
  jObj [("prompts", jArr [
    jObj [("name", .str "code_review"),
      ("description", .str "Comprehensive code review with Gemini 2.5 Pro"),
      ("arguments", jArr [promptArgJson ("code") ("Code to review") true,
        promptArgJson ("language") ("Programming language") false])],
    jObj [("name", .str "explain_with_thinking"),
      ("description", .str "Deep explanation using Gemini 2.5 thinking capabilities"),
      ("arguments", jArr [promptArgJson ("topic") ("Topic to explain") true,
        promptArgJson ("level") ("Explanation level (beginner/intermediate/expert)") false])],
    jObj [("name", .str "creative_writing"),
      ("description", .str "Creative writing with style control"),
      ("arguments", jArr [promptArgJson ("prompt") ("Writing prompt") true,
        promptArgJson ("style") ("Writing style") false,
        promptArgJson ("length") ("Desired length") false])]])]

/-- The new user turn `{parts: [{text: args.prompt}]}` (note: no role). -/
def userTurn (args : ToolArgs) : Content :=
  { parts := [some { text := args.prompt }] }

/-- The model turn pushed after a successful provider call. -/
def modelTurn (text : String) : Content :=
  { role := some ("model"), parts := [some { text := some text }] }

/-- `requestBody.contents` after the conversation-history merge: the stored
history is prepended to the new user turn when a conversation id is present
and the stored history is nonempty. -/
def genContents (conv : ConvMap) (args : ToolArgs) : List Content :=
  let base := [userTurn args]
  if strTruthy args.conversationId then
    let h := (getConv conv (args.conversationId.getD "")).getD []
    if h.length > 0 then h ++ base else base
  else base

/-- The full request body `generateText` sends to the provider. -/
def genRequestOf (conv : ConvMap) (args : ToolArgs) (info : ModelInfo) : GenRequest :=
  { model := strOr args.model ("gemini-2.5-flash")
    contents := genContents conv args
    generationConfig :=
      { temperature := ratOr args.temperature (7 / 10)
        maxOutputTokens := ratOr args.maxTokens 2048
        topK := ratOr args.topK 40
        topP := ratOr args.topP (19 / 20)
        responseMimeType := if boolTruthy args.jsonMode then some ("application/json") else none
        responseSchema :=
          if boolTruthy args.jsonMode && jsonTruthy args.jsonSchema then args.jsonSchema
          else none }
    systemInstruction :=
      if strTruthy args.systemInstruction then
        some { parts := [some { text := args.systemInstruction }] }
      else none
    safetySettings := if jsonTruthy args.safetySettings then args.safetySettings else none
    useGoogleSearch := boolTruthy args.grounding && info.features.contains ("grounding") }

/-- `candidates?.length || 1` (an empty candidate list is falsy `0`). -/
def candCount (ok : GenOk) : Int :=
  match ok.candidates with
  | some l => if l.length = 0 then 1 else (l.length : Int)
  | none => 1

/-- The success payload of `generate_text`; `undefined` metadata dropped. -/
def genResultJson (model : String) (text : String) (ok : GenOk) : Json :=
  jObj [("content", jArr [jObj [("type", Json.str ("text")), ("text", Json.str text)]]),
    ("metadata", jObj (
      [("model", Json.str model)]
      ++ (match ok.usageMetadata.bind (fun u => u.totalTokenCount) with
          | some n => [("tokensUsed", Json.num n)]
          | none => [])
      ++ [("candidatesCount", Json.num (candCount ok))]
      ++ (match (ok.candidates.bind List.head?).bind (fun c => c.finishReason) with
          | some s => [("finishReason", Json.str s)]
          | none => [])))]

/-- The `generate_text` handler. The provider call is the oracle applied to
the built request; `argsQ = none` models the thrown property access on
`undefined` arguments, caught by the handler's own `catch`. -/
def generateText (conv : ConvMap) (rid : Option Json) (argsQ : Option ToolArgs)
    (oracle : Oracle) : ConvMap × MCPResponse :=
  match argsQ with
  | none => (conv, mkError rid (-32603) ("Cannot read properties of undefined (reading 'model')"))
  | some args =>
    let model := strOr args.model ("gemini-2.5-flash")
    match lookupModel model with
    | none => (conv, mkError rid (-32603) ("Unknown model: " ++ model))
    | some info =>
      let req := genRequestOf conv args info
      match oracle.genCall req with
      | .error e => (conv, mkError rid (-32603) e)
      | .ok ok =>
        let text := ok.text.getD ""
        let conv2 :=
          if strTruthy args.conversationId then
            let key := args.conversationId.getD ""
            let h := (getConv conv key).getD []
            setConv conv key (h ++ req.contents ++ [modelTurn text])
          else conv
        (conv2, mkResult rid (genResultJson model text ok))

/-- The characters of `";base64,"`. -/
def b64Delim : List Char := [';', 'b', 'a', 's', 'e', '6', '4', ',']

/-- Strip an exact leading pattern, returning the remainder. -/
def matchPre : List Char → List Char → Option (List Char)
  | [], cs => some cs
  | _, [] => none
  | p :: ps, c :: cs => if p = c then matchPre ps cs else none

/-- Rightmost split `cs = m ++ ";base64," ++ p` with `p` nonempty — the
backtracking behavior of the greedy groups in `/^data:(.+);base64,(.+)$/`.
The mime side may come out empty here; the caller rejects that. -/
def lastSplitB64 : List Char → Option (List Char × List Char)
  | [] => none
  | c :: rest =>
    match lastSplitB64 rest with
    | some (m, p) => some (c :: m, p)
    | none =>
      match matchPre b64Delim (c :: rest) with
      | some b => if b.isEmpty then none else some ([], b)
      | none => none

/-- `.` in a JavaScript regex: any character except a line terminator. -/
def dotOk (c : Char) : Bool :=
  !(c = '\n' || c = '\r' || c = ' ' || c = ' ')

/-- `imageBase64.match(/^data:(.+);base64,(.+)$/)`, as mime type and payload. -/
def dataUrlMatch (s : String) : Option (String × String) :=
  match matchPre (("data:").data) s.data with
  | none => none
  | some rest =>
    if rest.all dotOk then
      match lastSplitB64 rest with
      | some (m, p) => if m.isEmpty then none else some (String.mk m, String.mk p)
      | none => none
    else none

/-- The `imagePart` local of `analyzeImage`; `none` models the `undefined`
left behind when both image arguments are absent or falsy. -/
def imagePartOf (args : ToolArgs) : Option MsgPart :=
  if strTruthy args.imageUrl then
    some { text := some ("[Image URL: " ++ args.imageUrl.getD "" ++ "]") }
  else if strTruthy args.imageBase64 then
    let s := args.imageBase64.getD ""
    match dataUrlMatch s with
    | some (m, d) => some { inlineData := some { mimeType := m, data := d } }
    | none => some { inlineData := some { mimeType := "image/jpeg", data := s } }
  else none

/-- The request `analyzeImage` sends to the provider. -/
def visionRequestOf (args : ToolArgs) : VisionRequest :=
  { model := strOr args.model ("gemini-2.5-flash")
    contents := [{ parts := [some { text := args.prompt }, imagePartOf args] }] }

/-- The `analyze_image` handler. -/
def analyzeImage (rid : Option Json) (argsQ : Option ToolArgs) (oracle : Oracle) : MCPResponse :=
  match argsQ with
  | none => mkError rid (-32603) ("Cannot read properties of undefined (reading 'model')")
  | some args =>
    match oracle.visionCall (visionRequestOf args) with
    | .error e => mkError rid (-32603) e
    | .ok ok =>
      mkResult rid (jObj [("content",
        jArr [jObj [("type", Json.str ("text")), ("text", Json.str (ok.text.getD ""))]])])

/-- The request `countTokens` sends to the provider. -/
def countRequestOf (args : ToolArgs) : CountRequest :=
  { model := strOr args.model ("gemini-2.5-flash")
    contents := [{ parts := [some { text := args.text }] }] }

/-- The `count_tokens` handler. -/
def countTokens (rid : Option Json) (argsQ : Option ToolArgs) (oracle : Oracle) : MCPResponse :=
  match argsQ with
  | none => mkError rid (-32603) ("Cannot read properties of undefined (reading 'model')")
  | some args =>
    match oracle.countCall (countRequestOf args) with
    | .error e => mkError rid (-32603) e
    | .ok ok =>
      mkResult rid (jObj [
        ("content", jArr [jObj [("type", Json.str ("text")),
          ("text", Json.str ("Token count: " ++ showOptInt ok.totalTokens))]]),
        ("metadata", jObj (
          (match ok.totalTokens with
           | some n => [("tokenCount", Json.num n)]
           | none => [])
          ++ [("model", Json.str (strOr args.model ("gemini-2.5-flash")))]))])

/-- The capability `switch` inside the `list_models` filter predicate. -/
def modelMatches (filter : String) (info : ModelInfo) : Bool :=
  if filter = "thinking" then info.thinking == some true
  else if filter = "vision" then info.features.contains ("function_calling")
  else if filter = "grounding" then info.features.contains ("grounding")
  else if filter = "json_mode" then info.features.contains ("json_mode")
  else true

/-- `Object.entries(GEMINI_MODELS)`, filtered exactly as `listModels` does:
`"all"` (and, through the default `switch` case, any unrecognized filter
value) keeps every entry. -/
def filteredModels (filter : String) : List (String × ModelInfo) :=
  if filter = "all" then GEMINI_MODELS
  else GEMINI_MODELS.filter (fun p => modelMatches filter p.2)

/-- One `{name, ...info}` entry of the rendered model list. -/
def modelEntryJson (p : String × ModelInfo) : Json :=
  jObj ([("name", Json.str p.1), ("description", Json.str p.2.description),
    ("features", jArr (p.2.features.map Json.str)),
    ("contextWindow", Json.num p.2.contextWindow)]
    ++ (match p.2.thinking with | some b => [("thinking", Json.bool b)] | none => []))

/-- The `list_models` handler (synchronous; never calls the provider). -/
def listModels (rid : Option Json) (argsQ : Option ToolArgs) : MCPResponse :=
  let filter := strOr (argsQ.bind fun a => a.filter) ("all")
  let entries := filteredModels filter
  mkResult rid (jObj [
    ("content", jArr [jObj [("type", Json.str ("text")),
      ("text", Json.str (prettyText (jArr (entries.map modelEntryJson))))]]),
    ("metadata", jObj [("count", Json.num entries.length), ("filter", Json.str filter)])])

/-- The `embed_text` handler. -/
def embedText (rid : Option Json) (argsQ : Option ToolArgs) (oracle : Oracle) : MCPResponse :=
  match argsQ with
  | none => mkError rid (-32603) ("Cannot read properties of undefined (reading 'model')")
  | some args =>
    let model := strOr args.model ("text-embedding-004")
    match oracle.embedCall { model := model, contents := args.text } with
    | .error e => mkError rid (-32603) e
    | .ok ok =>
      let vals := ((ok.embeddings.bind List.head?).bind fun i => i.values).getD []
      mkResult rid (jObj [
        ("content", jArr [jObj [("type", Json.str ("text")),
          ("text", Json.str (stringifyText (jObj [("embedding", jArr vals),
            ("model", Json.str model)])))]]),
        ("metadata", jObj [("model", Json.str model), ("dimensions", Json.num vals.length)])])

/-- The `tools/call` dispatcher (`handleToolCall`). -/
def handleToolCall (conv : ConvMap) (oracle : Oracle) (req : MCPRequest) :
    ConvMap × MCPResponse :=
  let nameQ := req.params.bind fun p => p.name
  let argsQ := req.params.bind fun p => p.arguments
  match nameQ with
  | some s =>
    if s = "generate_text" then generateText conv req.id argsQ oracle
    else if s = "analyze_image" then (conv, analyzeImage req.id argsQ oracle)
    else if s = "count_tokens" then (conv, countTokens req.id argsQ oracle)
    else if s = "list_models" then (conv, listModels req.id argsQ)
    else if s = "embed_text" then (conv, embedText req.id argsQ oracle)
    else (conv, mkError req.id (-32601) ("Unknown tool: " ++ s))
  | none => (conv, mkError req.id (-32601) ("Unknown tool: undefined"))

/-- The five methods of the `switch` in `handleRequest`. -/
def knownMethod (m : String) : Bool :=
  m = "initialize" || m = "tools/list" || m = "tools/call" ||
    m = "resources/list" || m = "prompts/list"

/-- The router `handleRequest`: returns the updated conversation map and the
list of envelopes written by `sendResponse` for this request. The absent-id
guard exists only in the `default` branch of the `switch`. -/
def handleRequest (conv : ConvMap) (oracle : Oracle) (req : MCPRequest) :
    ConvMap × List MCPResponse :=
  if req.method = "initialize" then (conv, [mkResult req.id initResultJson])
  else if req.method = "tools/list" then (conv, [mkResult req.id toolsListJson])
  else if req.method = "tools/call" then
    let r := handleToolCall conv oracle req
    (r.1, [r.2])
  else if req.method = "resources/list" then (conv, [mkResult req.id resourcesListJson])
  else if req.method = "prompts/list" then (conv, [mkResult req.id promptsListJson])
  else
    match req.id with
    | none => (conv, [])
    | some _ => (conv, [mkError req.id (-32601) ("Method not found")])

/-- `sendResponse` of the enhanced server: compact JSON plus `'\n'`. -/
def encodeNl (r : MCPResponse) : List Char := stringifyJ (respToJson r) ++ ['\n']

/-- Split a stream at `'\n'`. The final element is the pending unfinished
line, which `readline` has not delivered yet. -/
def splitNl : List Char → List (List Char)
  | [] => [[]]
  | c :: rest =>
    if c = '\n' then [] :: splitNl rest
    else
      match splitNl rest with
      | l :: ls => (c :: l) :: ls
      | [] => [[c]]

/-- `readline` strips a final `'\r'` from a delivered line. -/
def dropCr (l : List Char) : List Char :=
  if l.getLast? = some '\r' then l.dropLast else l

/-- The whitespace class of JavaScript `String.prototype.trim`. -/
def isJsWs (c : Char) : Bool :=
  c = ' ' || c = '\t' || c = '\n' || c = '\r' || c = '\x0b' || c = '\x0c' ||
    c = ' ' || c = '﻿'

/-- `line.trim()` is falsy exactly when every character is whitespace. -/
def isBlankLine (l : List Char) : Bool := l.all isJsWs

/-- Newline-framing decode: deliver completed lines, skip blank lines,
JSON-parse each, and drop parse failures (they are only logged). -/
def decodeNlStream (input : List Char) : List Json :=
  (splitNl input).dropLast.filterMap (fun l =>
    let l2 := dropCr l
    if isBlankLine l2 then none else parseTop (String.mk l2))

/-- UTF-8 byte length of a character sequence (what
`Buffer.from(s, 'utf-8').length` counts). -/
def utf8Len (cs : List Char) : Nat := (cs.map Char.utf8Size).sum

/-- `sendResponse` of the legacy server: a `Content-Length` header counting
UTF-8 *bytes*, a blank line, then the compact JSON body. -/
def lpEncode (r : MCPResponse) : List Char :=
  let body := stringifyJ (respToJson r)
  ("Content-Length: ").data ++ natChars (utf8Len body) ++ ['\r', '\n', '\r', '\n'] ++ body

/-- Match `\r?\n\r?\n` at the head; returns how many characters it spans. -/
def lineEnd2 : List Char → Option Nat
  | '\r' :: '\n' :: '\r' :: '\n' :: _ => some 4
  | '\r' :: '\n' :: '\n' :: _ => some 3
  | '\n' :: '\r' :: '\n' :: _ => some 3
  | '\n' :: '\n' :: _ => some 2
  | _ => none

/-- Match `Content-Length: (\d+)\r?\n\r?\n` at the head of the buffer:
the parsed length and the number of characters the match spans. -/
def matchHeaderAt (cs : List Char) : Option (Nat × Nat) :=
  match matchPre (("Content-Length: ").data) cs with
  | none => none
  | some rest =>
    let ds := rest.takeWhile isDigitC
    if ds.isEmpty then none
    else
      match lineEnd2 (rest.dropWhile isDigitC) with
      | some k => some (digitsVal ds, 16 + ds.length + k)
      | none => none

/-- Leftmost match of the header regex in the buffer:
`(match index, content length, match span)`. -/
def findHeader : List Char → Nat → Option (Nat × Nat × Nat)
  | [], _ => none
  | c :: rest, i =>
    match matchHeaderAt (c :: rest) with
    | some (n, hl) => some (i, n, hl)
    | none => findHeader rest (i + 1)

/-- One full run of `tryParseMessage` on the buffer (fueled by buffer
length): extract each complete framed message — measuring the body in
string characters, as `buffer.length`/`slice` do — JSON-parse it (dropping
failures, which are only logged), and return the remaining buffer. -/
def tryParseAll : Nat → List Char → List Json × List Char
  | 0, buf => ([], buf)
  | f + 1, buf =>
    match findHeader buf 0 with
    | none => ([], buf)
    | some (i, n, hl) =>
      let total := i + hl + n
      if buf.length < total then ([], buf)
      else
        let msg := (buf.drop (i + hl)).take n
        let buf2 := buf.drop total
        let parsed := (parseTop (String.mk msg)).toList
        if buf2.length > 0 then
          let r := tryParseAll f buf2
          (parsed ++ r.1, r.2)
        else (parsed, buf2)

/-- The legacy decoder applied to an accumulated buffer. -/
def lpDecode (buf : List Char) : List Json × List Char :=
  tryParseAll (buf.length + 1) buf

/-- A provider that answers every call successfully with text `t`. -/
def okOracle (t : String) : Oracle :=
  { genCall := fun _ => .ok { text := some t }
    visionCall := fun _ => .ok { text := some t }
    countCall := fun _ => .ok { totalTokens := some 5 }
    embedCall := fun _ => .ok { embeddings := some [{ values := some [Json.num 1, Json.num 2] }] } }

/-- A provider whose every call fails with message `e`. -/
def errOracle (e : String) : Oracle :=
  { genCall := fun _ => .error e
    visionCall := fun _ => .error e
    countCall := fun _ => .error e
    embedCall := fun _ => .error e }

/-- Back from `JsonList` to an ordinary list. -/
def JsonList.toList : JsonList → List Json
  | .nil => []
  | .cons x xs => x :: JsonList.toList xs

/-- Back from `JsonFields` to an ordinary association list. -/
def JsonFields.toList : JsonFields → List (String × Json)
  | .nil => []
  | .cons k v fs => (k, v) :: JsonFields.toList fs

mutual

/-- Fuel sufficient for `parseJ` to parse this value's rendering. -/
def needJ : Json → Nat
  | .null => 1
  | .bool _ => 1
  | .num _ => 1
  | .str _ => 1
  | .arr .nil => 1
  | .arr (.cons x xs) => 1 + needJ x + needL xs
  | .obj .nil => 1
  | .obj (.cons _ v fs) => 1 + needJ v + needF fs

/-- Fuel sufficient for `parseArrTail` on the remaining elements. -/
def needL : JsonList → Nat
  | .nil => 1
  | .cons x xs => 1 + needJ x + needL xs

/-- Fuel sufficient for `parseObjTail` on the remaining members. -/
def needF : JsonFields → Nat
  | .nil => 1
  | .cons _ v fs => 1 + needJ v + needF fs

end

/-- The input does not continue with a digit (so a greedy digit run that
ends exactly at its head is maximal). -/
def nonDigitStart : List Char → Bool
  | [] => true
  | c :: _ => !isDigitC c

/-! ### Digit and decimal-rendering lemmas -/

theorem digitChar_toNat : ∀ n, n < 10 → (digitChar n).toNat = 48 + n := by decide

theorem isDigitC_digitChar : ∀ n, n < 10 → isDigitC (digitChar n) = true := by decide

theorem hexDig_parseHex : ∀ n, n < 16 → parseHex (hexDig n) = some n := by decide

theorem digit_toNat {c : Char} (hd : isDigitC c = true) : 48 ≤ c.toNat ∧ c.toNat ≤ 57 := by
  simpa [isDigitC, Bool.and_eq_true, decide_eq_true_eq] using hd

theorem digit_ne {c x : Char} (hd : isDigitC c = true) (hx : isDigitC x = false) : c ≠ x := by
  intro h
  subst h
  rw [hd] at hx
  exact Bool.noConfusion hx

theorem jsonWs_not_digit {c : Char} (h : isJsonWs c = true) : isDigitC c = false := by
  simp only [isJsonWs, Bool.or_eq_true, decide_eq_true_eq] at h
  rcases h with ((h | h) | h) | h <;> subst h <;> decide

theorem digit_not_jsonWs {c : Char} (hd : isDigitC c = true) : isJsonWs c = false := by
  cases hw : isJsonWs c with
  | false => rfl
  | true => rw [jsonWs_not_digit hw] at hd; exact Bool.noConfusion hd

theorem natCharsGo_acc : ∀ (f n : Nat) (acc : List Char), n < f →
    natCharsGo f n acc = natCharsGo f n [] ++ acc := by
  intro f
  induction f with
  | zero => intro n acc h; exact absurd h (Nat.not_lt_zero n)
  | succ f ih =>
    intro n acc h
    by_cases h10 : n < 10
    · simp [natCharsGo, h10]
    · have hdiv : n / 10 < f := by omega
      simp only [natCharsGo]
      rw [if_neg h10, if_neg h10, ih (n / 10) (digitChar (n % 10) :: acc) hdiv,
        ih (n / 10) (digitChar (n % 10) :: []) hdiv]
      simp

theorem natCharsGo_fuel : ∀ (f g n : Nat), n < f → n < g →
    natCharsGo f n [] = natCharsGo g n [] := by
  intro f
  induction f with
  | zero => intro g n h _; exact absurd h (Nat.not_lt_zero n)
  | succ f ih =>
    intro g n hf hg
    cases g with
    | zero => exact absurd hg (Nat.not_lt_zero n)
    | succ g =>
      by_cases h10 : n < 10
      · simp [natCharsGo, h10]
      · have h1 : n / 10 < f := by omega
        have h2 : n / 10 < g := by omega
        simp only [natCharsGo]
        rw [if_neg h10, if_neg h10, natCharsGo_acc f _ _ h1, natCharsGo_acc g _ _ h2,
          ih g (n / 10) h1 h2]

theorem natChars_small {n : Nat} (h : n < 10) : natChars n = [digitChar n] := by
  simp [natChars, natCharsGo, h]

theorem natChars_unfold (n : Nat) (h : 10 ≤ n) :
    natChars n = natChars (n / 10) ++ [digitChar (n % 10)] := by
  show natCharsGo (n + 1) n [] = _
  rw [show natCharsGo (n + 1) n [] = natCharsGo n (n / 10) [digitChar (n % 10)] from by
    simp only [natCharsGo]
    rw [if_neg (by omega)]]
  rw [natCharsGo_acc n (n / 10) _ (by omega),
    natCharsGo_fuel n (n / 10 + 1) (n / 10) (by omega) (by omega)]
  rfl

theorem natChars_all_digits : ∀ n, ∀ c ∈ natChars n, isDigitC c = true := by
  intro n
  induction n using Nat.strong_induction_on with
  | _ n ih =>
    by_cases h : n < 10
    · rw [natChars_small h]
      intro c hc
      rw [List.mem_singleton] at hc
      subst hc
      exact isDigitC_digitChar n h
    · rw [natChars_unfold n (by omega)]
      intro c hc
      rcases List.mem_append.mp hc with h1 | h2
      · exact ih (n / 10) (by omega) c h1
      · rw [List.mem_singleton] at h2
        subst h2
        exact isDigitC_digitChar _ (by omega)

theorem natChars_ne_nil (n : Nat) : natChars n ≠ [] := by
  by_cases h : n < 10
  · rw [natChars_small h]; simp
  · rw [natChars_unfold n (by omega)]; simp

theorem digitsVal_natChars : ∀ n, digitsVal (natChars n) = n := by
  intro n
  induction n using Nat.strong_induction_on with
  | _ n ih =>
    by_cases h : n < 10
    · rw [natChars_small h]
      have := digitChar_toNat n h
      simp [digitsVal]
      omega
    · rw [natChars_unfold n (by omega)]
      have hmod := digitChar_toNat (n % 10) (by omega)
      have hdiv := ih (n / 10) (by omega)
      simp only [digitsVal, List.foldl_append] at hdiv ⊢
      rw [hdiv, List.foldl_cons, List.foldl_nil, hmod]
      omega

theorem takeWhile_digits : ∀ (ds rest : List Char), (∀ c ∈ ds, isDigitC c = true) →
    nonDigitStart rest = true →
    (ds ++ rest).takeWhile isDigitC = ds ∧ (ds ++ rest).dropWhile isDigitC = rest := by
  intro ds
  induction ds with
  | nil =>
    intro rest _ hr
    cases rest with
    | nil => simp
    | cons c t =>
      simp only [nonDigitStart, Bool.not_eq_true'] at hr
      simp [List.takeWhile_cons, List.dropWhile_cons, hr]
  | cons c ds ih =>
    intro rest h hr
    have hc : isDigitC c = true := h c (List.mem_cons_self c ds)
    have := ih rest (fun x hx => h x (List.mem_cons_of_mem c hx)) hr
    simp [List.takeWhile_cons, List.dropWhile_cons, hc, this.1, this.2]

theorem parseDigits_natChars (n : Nat) (rest : List Char) (hr : nonDigitStart rest = true) :
    parseDigits (natChars n ++ rest) = some (n, rest) := by
  obtain ⟨ht, hd⟩ := takeWhile_digits (natChars n) rest (natChars_all_digits n) hr
  unfold parseDigits
  simp only [ht, hd]
  rw [if_neg (by simpa using natChars_ne_nil n)]
  rw [digitsVal_natChars n]

/-! ### String-escape round trip -/

theorem charFromCode_toNat {c : Char} (h : c.toNat < 55296) : charFromCode c.toNat = some c := by
  unfold charFromCode
  rw [if_pos h, Char.ofNat_toNat]

theorem parseStr_escShort (e ch : Char) (tail : List Char) (he : escDecode e = some ch)
    (hu : ¬e = 'u') :
    parseStrChars ('\\' :: e :: tail) = (parseStrChars tail).map (fun p => (ch :: p.1, p.2)) := by
  rw [parseStrChars.eq_def]
  dsimp only
  rw [if_neg (by decide), if_pos rfl, if_neg hu, he]

theorem parseStr_escChar (c : Char) (tail : List Char) :
    parseStrChars (escChar c ++ tail) = (parseStrChars tail).map (fun p => (c :: p.1, p.2)) := by
  by_cases h1 : c = '"'
  · subst h1
    rw [show escChar '"' = ['\\', '"'] from by decide]
    exact parseStr_escShort '"' '"' tail rfl (by decide)
  by_cases h2 : c = '\\'
  · subst h2
    rw [show escChar '\\' = ['\\', '\\'] from by decide]
    exact parseStr_escShort '\\' '\\' tail rfl (by decide)
  by_cases h3 : c = '\n'
  · subst h3
    rw [show escChar '\n' = ['\\', 'n'] from by decide]
    exact parseStr_escShort 'n' '\n' tail rfl (by decide)
  by_cases h4 : c = '\r'
  · subst h4
    rw [show escChar '\r' = ['\\', 'r'] from by decide]
    exact parseStr_escShort 'r' '\r' tail rfl (by decide)
  by_cases h5 : c = '\t'
  · subst h5
    rw [show escChar '\t' = ['\\', 't'] from by decide]
    exact parseStr_escShort 't' '\t' tail rfl (by decide)
  by_cases h6 : c = '\x08'
  · subst h6
    rw [show escChar '\x08' = ['\\', 'b'] from by decide]
    exact parseStr_escShort 'b' '\x08' tail rfl (by decide)
  by_cases h7 : c = '\x0c'
  · subst h7
    rw [show escChar '\x0c' = ['\\', 'f'] from by decide]
    exact parseStr_escShort 'f' '\x0c' tail rfl (by decide)
  by_cases h8 : c.toNat < 32
  · rw [show escChar c = ['\\', 'u', '0', '0', hexDig (c.toNat / 16), hexDig (c.toNat % 16)]
      from by
        unfold escChar
        rw [if_neg h1, if_neg h2, if_neg h3, if_neg h4, if_neg h5, if_neg h6, if_neg h7,
          if_pos h8]]
    show parseStrChars
      ('\\' :: 'u' :: '0' :: '0' :: hexDig (c.toNat / 16) :: hexDig (c.toNat % 16) :: tail) = _
    rw [parseStrChars.eq_def]
    dsimp only
    rw [if_neg (by decide), if_pos rfl, if_pos rfl]
    try dsimp only
    rw [show parseHex '0' = some 0 from rfl,
      hexDig_parseHex (c.toNat / 16) (by omega), hexDig_parseHex (c.toNat % 16) (by omega)]
    try dsimp only
    rw [show ((0 * 16 + 0) * 16 + c.toNat / 16) * 16 + c.toNat % 16 = c.toNat from by omega]
    rw [charFromCode_toNat (by omega)]
  · rw [show escChar c = [c] from by
      unfold escChar
      rw [if_neg h1, if_neg h2, if_neg h3, if_neg h4, if_neg h5, if_neg h6, if_neg h7,
        if_neg h8]]
    show parseStrChars (c :: tail) = _
    rw [parseStrChars.eq_def]
    dsimp only
    rw [if_neg h1, if_neg h2, if_neg h8]

theorem parseStr_jstr : ∀ (s tail : List Char),
    parseStrChars (jstr s ++ '"' :: tail) = some (s, tail) := by
  intro s
  induction s with
  | nil =>
    intro tail
    show parseStrChars ('"' :: tail) = some ([], tail)
    rw [parseStrChars.eq_def]
    dsimp only
    rw [if_pos rfl]
  | cons c s ih =>
    intro tail
    show parseStrChars (escChar c ++ jstr s ++ '"' :: tail) = _
    rw [List.append_assoc, parseStr_escChar c _, ih tail]
    rfl

/-! ### Head-shape lemmas for rendered values -/

theorem skipWs_notWs {c : Char} (t : List Char) (h : isJsonWs c = false) :
    skipWs (c :: t) = c :: t := by
  simp [skipWs, h]

theorem natChars_head (n : Nat) : ∃ c t, natChars n = c :: t ∧ isDigitC c = true := by
  cases h : natChars n with
  | nil => exact absurd h (natChars_ne_nil n)
  | cons c t =>
    refine ⟨c, t, rfl, natChars_all_digits n c ?_⟩
    rw [h]
    exact List.mem_cons_self c t

theorem jsWs_not_digit {c : Char} (h : isJsWs c = true) : isDigitC c = false := by
  simp only [isJsWs, Bool.or_eq_true, decide_eq_true_eq] at h
  rcases h with ((((((h | h) | h) | h) | h) | h) | h) | h <;> subst h <;> decide

theorem digit_not_jsWs {c : Char} (hd : isDigitC c = true) : isJsWs c = false := by
  cases hw : isJsWs c with
  | false => rfl
  | true => rw [jsWs_not_digit hw] at hd; exact Bool.noConfusion hd

theorem stringify_head (v : Json) :
    ∃ c t, stringifyJ v = c :: t ∧ isJsonWs c = false ∧ c ≠ ']' ∧ c ≠ '}' ∧ c ≠ ',' ∧
      isJsWs c = false := by
  cases v with
  | null => exact ⟨'n', _, rfl, by decide, by decide, by decide, by decide, by decide⟩
  | bool b =>
    cases b with
    | true => exact ⟨'t', _, rfl, by decide, by decide, by decide, by decide, by decide⟩
    | false => exact ⟨'f', _, rfl, by decide, by decide, by decide, by decide, by decide⟩
  | num i =>
    by_cases h : i < 0
    · refine ⟨'-', natChars i.natAbs, ?_, by decide, by decide, by decide, by decide, by decide⟩
      simp [stringifyJ, h]
    · obtain ⟨c, t, hv, hc⟩ := natChars_head i.natAbs
      refine ⟨c, t, ?_, digit_not_jsonWs hc, digit_ne hc (by decide), digit_ne hc (by decide),
        digit_ne hc (by decide), digit_not_jsWs hc⟩
      simp [stringifyJ, h, hv]
  | str s => exact ⟨'"', _, rfl, by decide, by decide, by decide, by decide, by decide⟩
  | arr xs =>
    cases xs with
    | nil => exact ⟨'[', _, rfl, by decide, by decide, by decide, by decide, by decide⟩
    | cons x t => exact ⟨'[', _, rfl, by decide, by decide, by decide, by decide, by decide⟩
  | obj fs =>
    cases fs with
    | nil => exact ⟨'{', _, rfl, by decide, by decide, by decide, by decide, by decide⟩
    | cons k v t => exact ⟨'{', _, rfl, by decide, by decide, by decide, by decide, by decide⟩

theorem skipWs_stringify (v : Json) (rest : List Char) :
    skipWs (stringifyJ v ++ rest) = stringifyJ v ++ rest := by
  obtain ⟨c, t, hv, hws, _, _, _, _⟩ := stringify_head v
  rw [hv, List.cons_append, skipWs_notWs _ hws]

theorem nonDigitStart_stringifyL (xs : JsonList) (rest : List Char) :
    nonDigitStart (stringifyL xs ++ ']' :: rest) = true := by
  cases xs with
  | nil => rfl
  | cons x t => rfl

theorem nonDigitStart_stringifyF (fs : JsonFields) (rest : List Char) :
    nonDigitStart (stringifyF fs ++ '}' :: rest) = true := by
  cases fs with
  | nil => rfl
  | cons k v t => rfl

theorem ofList_toList_L : ∀ xs : JsonList, JsonList.ofList xs.toList = xs
  | .nil => rfl
  | .cons x xs => by
    show JsonList.cons x (JsonList.ofList xs.toList) = _
    rw [ofList_toList_L xs]

theorem ofList_toList_F : ∀ fs : JsonFields, JsonFields.ofList fs.toList = fs
  | .nil => rfl
  | .cons k v fs => by
    show JsonFields.cons k v (JsonFields.ofList fs.toList) = _
    rw [ofList_toList_F fs]

/-! ### Parse–stringify round trip -/

theorem needL_pos : ∀ xs : JsonList, 1 ≤ needL xs
  | .nil => Nat.le_refl 1
  | .cons x xs => by simp only [needL]; omega

theorem needF_pos : ∀ fs : JsonFields, 1 ≤ needF fs
  | .nil => Nat.le_refl 1
  | .cons k v fs => by simp only [needF]; omega

mutual

theorem parseJ_stringify : ∀ (v : Json) (f : Nat) (rest : List Char), needJ v ≤ f →
    nonDigitStart rest = true → parseJ f (stringifyJ v ++ rest) = some (v, rest)
  | .null, f, rest, hf, _ => by
    cases f with
    | zero => simp [needJ] at hf
    | succ f =>
      show parseJ (f + 1) ('n' :: 'u' :: 'l' :: 'l' :: rest) = _
      rw [parseJ.eq_def]
      dsimp only
      rw [skipWs_notWs _ (by decide)]
      dsimp only
      rw [if_neg (by decide), if_neg (by decide), if_neg (by decide), if_pos rfl,
        if_pos (by decide)]
  | .bool true, f, rest, hf, _ => by
    cases f with
    | zero => simp [needJ] at hf
    | succ f =>
      show parseJ (f + 1) ('t' :: 'r' :: 'u' :: 'e' :: rest) = _
      rw [parseJ.eq_def]
      dsimp only
      rw [skipWs_notWs _ (by decide)]
      dsimp only
      rw [if_neg (by decide), if_neg (by decide), if_neg (by decide), if_neg (by decide),
        if_pos rfl, if_pos (by decide)]
  | .bool false, f, rest, hf, _ => by
    cases f with
    | zero => simp [needJ] at hf
    | succ f =>
      show parseJ (f + 1) ('f' :: 'a' :: 'l' :: 's' :: 'e' :: rest) = _
      rw [parseJ.eq_def]
      dsimp only
      rw [skipWs_notWs _ (by decide)]
      dsimp only
      rw [if_neg (by decide), if_neg (by decide), if_neg (by decide), if_neg (by decide),
        if_neg (by decide), if_pos rfl, if_pos (by decide)]
  | .num i, f, rest, hf, hrest => by
    cases f with
    | zero => simp [needJ] at hf
    | succ f =>
      by_cases hneg : i < 0
      · rw [show stringifyJ (.num i) = '-' :: natChars i.natAbs from by
          simp [stringifyJ, hneg]]
        rw [parseJ.eq_def]
        dsimp only
        rw [List.cons_append, skipWs_notWs _ (by decide)]
        dsimp only
        rw [if_neg (by decide), if_neg (by decide), if_neg (by decide), if_neg (by decide),
          if_neg (by decide), if_neg (by decide), if_pos rfl]
        rw [parseDigits_natChars i.natAbs rest hrest]
        show some (Json.num (-(i.natAbs : Int)), rest) = _
        rw [show -(i.natAbs : Int) = i from by omega]
      · obtain ⟨c, t, hv, hc⟩ := natChars_head i.natAbs
        rw [show stringifyJ (.num i) = natChars i.natAbs from by simp [stringifyJ, hneg], hv]
        rw [parseJ.eq_def]
        dsimp only
        rw [List.cons_append, skipWs_notWs _ (digit_not_jsonWs hc)]
        dsimp only
        rw [if_neg (digit_ne hc (by decide)), if_neg (digit_ne hc (by decide)),
          if_neg (digit_ne hc (by decide)), if_neg (digit_ne hc (by decide)),
          if_neg (digit_ne hc (by decide)), if_neg (digit_ne hc (by decide)),
          if_neg (digit_ne hc (by decide)), if_pos hc]
        rw [show c :: (t ++ rest) = natChars i.natAbs ++ rest from by
          rw [hv, List.cons_append]]
        rw [parseDigits_natChars i.natAbs rest hrest]
        show some (Json.num (i.natAbs : Int), rest) = _
        rw [show ((i.natAbs : Int) : Int) = i from by omega]
  | .str s, f, rest, hf, _ => by
    cases f with
    | zero => simp [needJ] at hf
    | succ f =>
      show parseJ (f + 1) ('"' :: ((jstr s.data ++ ['"']) ++ rest)) = _
      rw [List.append_assoc]
      rw [parseJ.eq_def]
      dsimp only
      rw [skipWs_notWs _ (by decide)]
      dsimp only
      rw [if_neg (by decide), if_neg (by decide), if_pos rfl]
      rw [show (['"'] : List Char) ++ rest = '"' :: rest from rfl]
      rw [parseStr_jstr s.data rest]
      rfl
  | .arr .nil, f, rest, hf, _ => by
    cases f with
    | zero => simp [needJ] at hf
    | succ f =>
      show parseJ (f + 1) ('[' :: ']' :: rest) = _
      rw [parseJ.eq_def]
      dsimp only
      rw [skipWs_notWs _ (by decide)]
      dsimp only
      rw [if_neg (by decide), if_pos rfl]
      rw [skipWs_notWs _ (by decide)]
      dsimp only
      rw [if_pos rfl]
  | .arr (.cons x xs), f, rest, hf, _ => by
    cases f with
    | zero => simp [needJ] at hf
    | succ f =>
      have hx : needJ x ≤ f := by simp only [needJ] at hf; omega
      have hxs : needL xs ≤ f := by simp only [needJ] at hf; omega
      show parseJ (f + 1) ('[' :: ((stringifyJ x ++ stringifyL xs ++ [']']) ++ rest)) = _
      rw [parseJ.eq_def]
      dsimp only
      rw [skipWs_notWs _ (by decide)]
      dsimp only
      rw [if_neg (by decide), if_pos rfl]
      rw [List.append_assoc, List.append_assoc,
        show ([']'] : List Char) ++ rest = ']' :: rest from rfl]
      rw [skipWs_stringify x _]
      obtain ⟨c, t, hv, _, hbr, _, _, _⟩ := stringify_head x
      rw [hv, List.cons_append]
      dsimp only
      rw [if_neg hbr]
      rw [show c :: (t ++ (stringifyL xs ++ ']' :: rest))
        = stringifyJ x ++ (stringifyL xs ++ ']' :: rest) from by rw [hv, List.cons_append]]
      rw [parseJ_stringify x f (stringifyL xs ++ ']' :: rest) hx
        (nonDigitStart_stringifyL xs rest)]
      dsimp only
      rw [parseArrTail_stringify xs [x] f rest hxs]
      rw [show jArr ([x] ++ JsonList.toList xs)
        = Json.arr (JsonList.cons x (JsonList.ofList xs.toList)) from rfl, ofList_toList_L xs]
  | .obj .nil, f, rest, hf, _ => by
    cases f with
    | zero => simp [needJ] at hf
    | succ f =>
      show parseJ (f + 1) ('{' :: '}' :: rest) = _
      rw [parseJ.eq_def]
      dsimp only
      rw [skipWs_notWs _ (by decide)]
      dsimp only
      rw [if_pos rfl]
      rw [skipWs_notWs _ (by decide)]
      dsimp only
      rw [if_pos rfl]
  | .obj (.cons k v fs), f, rest, hf, _ => by
    cases f with
    | zero => simp [needJ] at hf
    | succ f =>
      have hv' : needJ v ≤ f := by simp only [needJ] at hf; omega
      have hfs : needF fs ≤ f := by simp only [needJ] at hf; omega
      show parseJ (f + 1)
        ('{' :: '"' :: ((jstr k.data ++ '"' :: ':' :: (stringifyJ v ++ stringifyF fs ++ ['}']))
          ++ rest)) = _
      rw [parseJ.eq_def]
      dsimp only
      rw [skipWs_notWs _ (by decide)]
      dsimp only
      rw [if_pos rfl]
      rw [skipWs_notWs _ (by decide)]
      dsimp only
      rw [if_neg (by decide), if_pos rfl]
      rw [List.append_assoc,
        show ('"' :: ':' :: (stringifyJ v ++ stringifyF fs ++ ['}'])) ++ rest
          = '"' :: (':' :: ((stringifyJ v ++ stringifyF fs ++ ['}']) ++ rest)) from rfl]
      rw [parseStr_jstr k.data _]
      dsimp only
      rw [skipWs_notWs _ (by decide)]
      dsimp only
      rw [if_pos rfl]
      rw [List.append_assoc, List.append_assoc,
        show (['}'] : List Char) ++ rest = '}' :: rest from rfl]
      rw [parseJ_stringify v f (stringifyF fs ++ '}' :: rest) hv'
        (nonDigitStart_stringifyF fs rest)]
      dsimp only
      rw [parseObjTail_stringify fs [(String.mk k.data, v)] f rest hfs]
      rw [show jObj ([(String.mk k.data, v)] ++ JsonFields.toList fs)
        = Json.obj (JsonFields.cons k v (JsonFields.ofList fs.toList)) from rfl,
        ofList_toList_F fs]

theorem parseArrTail_stringify : ∀ (xs : JsonList) (acc : List Json) (f : Nat)
    (rest : List Char), needL xs ≤ f →
    parseArrTail f acc (stringifyL xs ++ ']' :: rest) = some (jArr (acc ++ xs.toList), rest)
  | .nil, acc, f, rest, hf => by
    cases f with
    | zero => simp [needL] at hf
    | succ f =>
      show parseArrTail (f + 1) acc (']' :: rest) = _
      rw [parseArrTail.eq_def]
      dsimp only
      rw [skipWs_notWs _ (by decide)]
      dsimp only
      rw [if_neg (by decide), if_pos rfl]
      rw [show acc ++ JsonList.toList .nil = acc from by simp [JsonList.toList]]
  | .cons y ys, acc, f, rest, hf => by
    cases f with
    | zero => simp [needL] at hf
    | succ f =>
      have hy : needJ y ≤ f := by simp only [needL] at hf; omega
      have hys : needL ys ≤ f := by simp only [needL] at hf; omega
      show parseArrTail (f + 1) acc ((',' :: (stringifyJ y ++ stringifyL ys)) ++ ']' :: rest) = _
      rw [List.cons_append, parseArrTail.eq_def]
      dsimp only
      rw [skipWs_notWs _ (by decide)]
      dsimp only
      rw [if_pos rfl]
      rw [List.append_assoc]
      rw [parseJ_stringify y f (stringifyL ys ++ ']' :: rest) hy
        (nonDigitStart_stringifyL ys rest)]
      dsimp only
      rw [parseArrTail_stringify ys (acc ++ [y]) f rest hys]
      rw [show (acc ++ [y]) ++ JsonList.toList ys
        = acc ++ JsonList.toList (JsonList.cons y ys) from by simp [JsonList.toList]]

theorem parseObjTail_stringify : ∀ (fs : JsonFields) (acc : List (String × Json)) (f : Nat)
    (rest : List Char), needF fs ≤ f →
    parseObjTail f acc (stringifyF fs ++ '}' :: rest) = some (jObj (acc ++ fs.toList), rest)
  | .nil, acc, f, rest, hf => by
    cases f with
    | zero => simp [needF] at hf
    | succ f =>
      show parseObjTail (f + 1) acc ('}' :: rest) = _
      rw [parseObjTail.eq_def]
      dsimp only
      rw [skipWs_notWs _ (by decide)]
      dsimp only
      rw [if_neg (by decide), if_pos rfl]
      rw [show acc ++ JsonFields.toList .nil = acc from by simp [JsonFields.toList]]
  | .cons k v fs, acc, f, rest, hf => by
    cases f with
    | zero => simp [needF] at hf
    | succ f =>
      have hv' : needJ v ≤ f := by simp only [needF] at hf; omega
      have hfs : needF fs ≤ f := by simp only [needF] at hf; omega
      show parseObjTail (f + 1) acc
        ((',' :: '"' :: (jstr k.data ++ '"' :: ':' :: (stringifyJ v ++ stringifyF fs)))
          ++ '}' :: rest) = _
      rw [List.cons_append, parseObjTail.eq_def]
      dsimp only
      rw [skipWs_notWs _ (by decide)]
      dsimp only
      rw [if_pos rfl]
      rw [List.cons_append, skipWs_notWs _ (by decide)]
      dsimp only
      rw [if_pos rfl]
      rw [List.append_assoc,
        show ('"' :: ':' :: (stringifyJ v ++ stringifyF fs)) ++ '}' :: rest
          = '"' :: (':' :: ((stringifyJ v ++ stringifyF fs) ++ '}' :: rest)) from rfl]
      rw [parseStr_jstr k.data _]
      dsimp only
      rw [skipWs_notWs _ (by decide)]
      dsimp only
      rw [if_pos rfl]
      rw [List.append_assoc]
      rw [parseJ_stringify v f (stringifyF fs ++ '}' :: rest) hv'
        (nonDigitStart_stringifyF fs rest)]
      dsimp only
      rw [parseObjTail_stringify fs (acc ++ [(String.mk k.data, v)]) f rest hfs]
      rw [show (acc ++ [(String.mk k.data, v)]) ++ JsonFields.toList fs
        = acc ++ JsonFields.toList (JsonFields.cons k v fs) from by simp [JsonFields.toList]]

end

mutual

theorem needJ_le_len : ∀ v : Json, needJ v ≤ (stringifyJ v).length
  | .null => by simp [needJ, stringifyJ]
  | .bool true => by simp [needJ, stringifyJ]
  | .bool false => by simp [needJ, stringifyJ]
  | .num i => by
    by_cases h : i < 0
    · simp only [needJ, stringifyJ, if_pos h]
      simp
    · simp only [needJ, stringifyJ, if_neg h]
      have := natChars_ne_nil i.natAbs
      have : 1 ≤ (natChars i.natAbs).length := by
        cases hx : natChars i.natAbs with
        | nil => exact absurd hx (natChars_ne_nil i.natAbs)
        | cons a b => simp
      omega
  | .str s => by simp [needJ, stringifyJ]
  | .arr .nil => by simp [needJ, stringifyJ]
  | .arr (.cons x xs) => by
    have h1 := needJ_le_len x
    have h2 := needL_le_len xs
    simp only [needJ, stringifyJ, List.length_cons, List.length_append, List.length_singleton]
    omega
  | .obj .nil => by simp [needJ, stringifyJ]
  | .obj (.cons k v fs) => by
    have h1 := needJ_le_len v
    have h2 := needF_le_len fs
    simp only [needJ, stringifyJ, List.length_cons, List.length_append, List.length_singleton]
    omega

theorem needL_le_len : ∀ xs : JsonList, needL xs ≤ (stringifyL xs).length + 1
  | .nil => by simp [needL, stringifyL]
  | .cons y ys => by
    have h1 := needJ_le_len y
    have h2 := needL_le_len ys
    simp only [needL, stringifyL, List.length_cons, List.length_append]
    omega

theorem needF_le_len : ∀ fs : JsonFields, needF fs ≤ (stringifyF fs).length + 1
  | .nil => by simp [needF, stringifyF]
  | .cons k v fs => by
    have h1 := needJ_le_len v
    have h2 := needF_le_len fs
    simp only [needF, stringifyF, List.length_cons, List.length_append]
    omega

end

/-- The full `JSON.parse ∘ JSON.stringify` round trip on the embedded JSON
fragment. -/
theorem parseTop_stringify (v : Json) : parseTop (stringifyText v) = some v := by
  unfold parseTop stringifyText
  rw [show (String.mk (stringifyJ v)).data = stringifyJ v from rfl]
  have h1 : parseJ ((stringifyJ v).length + 1) (stringifyJ v ++ []) = some (v, []) :=
    parseJ_stringify v _ [] (by have := needJ_le_len v; omega) rfl
  rw [List.append_nil] at h1
  rw [h1]
  rfl

/-! ### Newline framing round trip -/

theorem hexDig_ne_crlf : ∀ n, n < 16 → hexDig n ≠ '\n' ∧ hexDig n ≠ '\r' := by decide

theorem escChar_no_crlf (c : Char) : ∀ x ∈ escChar c, x ≠ '\n' ∧ x ≠ '\r' := by
  unfold escChar
  split_ifs with h1 h2 h3 h4 h5 h6 h7 h8 <;> intro x hx
  · simp only [List.mem_cons, List.not_mem_nil, or_false] at hx
    rcases hx with rfl | rfl <;> exact ⟨by decide, by decide⟩
  · simp only [List.mem_cons, List.not_mem_nil, or_false] at hx
    rcases hx with rfl | rfl <;> exact ⟨by decide, by decide⟩
  · simp only [List.mem_cons, List.not_mem_nil, or_false] at hx
    rcases hx with rfl | rfl <;> exact ⟨by decide, by decide⟩
  · simp only [List.mem_cons, List.not_mem_nil, or_false] at hx
    rcases hx with rfl | rfl <;> exact ⟨by decide, by decide⟩
  · simp only [List.mem_cons, List.not_mem_nil, or_false] at hx
    rcases hx with rfl | rfl <;> exact ⟨by decide, by decide⟩
  · simp only [List.mem_cons, List.not_mem_nil, or_false] at hx
    rcases hx with rfl | rfl <;> exact ⟨by decide, by decide⟩
  · simp only [List.mem_cons, List.not_mem_nil, or_false] at hx
    rcases hx with rfl | rfl <;> exact ⟨by decide, by decide⟩
  · simp only [List.mem_cons, List.not_mem_nil, or_false] at hx
    rcases hx with rfl | rfl | rfl | rfl | rfl | rfl
    · exact ⟨by decide, by decide⟩
    · exact ⟨by decide, by decide⟩
    · exact ⟨by decide, by decide⟩
    · exact ⟨by decide, by decide⟩
    · exact hexDig_ne_crlf _ (by omega)
    · exact hexDig_ne_crlf _ (by omega)
  · simp only [List.mem_singleton] at hx
    subst hx
    constructor
    · intro he; subst he; exact h8 (by decide)
    · intro he; subst he; exact h8 (by decide)

theorem jstr_no_crlf : ∀ s : List Char, ∀ x ∈ jstr s, x ≠ '\n' ∧ x ≠ '\r' := by
  intro s
  induction s with
  | nil => intro x hx; exact absurd hx (List.not_mem_nil x)
  | cons c s ih =>
    intro x hx
    rcases List.mem_append.mp hx with h | h
    · exact escChar_no_crlf c x h
    · exact ih x h

theorem natChars_no_crlf (n : Nat) : ∀ x ∈ natChars n, x ≠ '\n' ∧ x ≠ '\r' := by
  intro x hx
  have hd := natChars_all_digits n x hx
  exact ⟨digit_ne hd (by decide), digit_ne hd (by decide)⟩

mutual

theorem stringifyJ_no_crlf : ∀ v : Json, ∀ x ∈ stringifyJ v, x ≠ '\n' ∧ x ≠ '\r'
  | .null => by intro x hx; fin_cases hx <;> exact ⟨by decide, by decide⟩
  | .bool true => by intro x hx; fin_cases hx <;> exact ⟨by decide, by decide⟩
  | .bool false => by intro x hx; fin_cases hx <;> exact ⟨by decide, by decide⟩
  | .num i => by
    intro x hx
    by_cases h : i < 0
    · simp only [stringifyJ, if_pos h, List.mem_cons] at hx
      rcases hx with rfl | hx
      · exact ⟨by decide, by decide⟩
      · exact natChars_no_crlf i.natAbs x hx
    · simp only [stringifyJ, if_neg h] at hx
      exact natChars_no_crlf i.natAbs x hx
  | .str s => by
    intro x hx
    simp only [stringifyJ, List.mem_cons, List.mem_append, List.mem_singleton,
      List.not_mem_nil, or_false] at hx
    rcases hx with rfl | hx | rfl
    · exact ⟨by decide, by decide⟩
    · exact jstr_no_crlf s.data x hx
    · exact ⟨by decide, by decide⟩
  | .arr .nil => by intro x hx; fin_cases hx <;> exact ⟨by decide, by decide⟩
  | .arr (.cons y ys) => by
    intro x hx
    simp only [stringifyJ, List.mem_cons, List.mem_append, List.mem_singleton,
      List.not_mem_nil, or_false] at hx
    rcases hx with rfl | (hx | hx) | rfl
    · exact ⟨by decide, by decide⟩
    · exact stringifyJ_no_crlf y x hx
    · exact stringifyL_no_crlf ys x hx
    · exact ⟨by decide, by decide⟩
  | .obj .nil => by intro x hx; fin_cases hx <;> exact ⟨by decide, by decide⟩
  | .obj (.cons k v fs) => by
    intro x hx
    simp only [stringifyJ, List.mem_cons, List.mem_append, List.mem_singleton,
      List.not_mem_nil, or_false] at hx
    rcases hx with rfl | rfl | hx | rfl | rfl | (hx | hx) | rfl
    · exact ⟨by decide, by decide⟩
    · exact ⟨by decide, by decide⟩
    · exact jstr_no_crlf k.data x hx
    · exact ⟨by decide, by decide⟩
    · exact ⟨by decide, by decide⟩
    · exact stringifyJ_no_crlf v x hx
    · exact stringifyF_no_crlf fs x hx
    · exact ⟨by decide, by decide⟩

theorem stringifyL_no_crlf : ∀ xs : JsonList, ∀ x ∈ stringifyL xs, x ≠ '\n' ∧ x ≠ '\r'
  | .nil => by intro x hx; exact absurd hx (List.not_mem_nil x)
  | .cons y ys => by
    intro x hx
    simp only [stringifyL, List.mem_cons, List.mem_append, List.not_mem_nil, or_false] at hx
    rcases hx with rfl | hx | hx
    · exact ⟨by decide, by decide⟩
    · exact stringifyJ_no_crlf y x hx
    · exact stringifyL_no_crlf ys x hx

theorem stringifyF_no_crlf : ∀ fs : JsonFields, ∀ x ∈ stringifyF fs, x ≠ '\n' ∧ x ≠ '\r'
  | .nil => by intro x hx; exact absurd hx (List.not_mem_nil x)
  | .cons k v fs => by
    intro x hx
    simp only [stringifyF, List.mem_cons, List.mem_append, List.mem_singleton,
      List.not_mem_nil, or_false] at hx
    rcases hx with rfl | rfl | hx | rfl | rfl | hx | hx
    · exact ⟨by decide, by decide⟩
    · exact ⟨by decide, by decide⟩
    · exact jstr_no_crlf k.data x hx
    · exact ⟨by decide, by decide⟩
    · exact ⟨by decide, by decide⟩
    · exact stringifyJ_no_crlf v x hx
    · exact stringifyF_no_crlf fs x hx

end

theorem splitNl_append (A B : List Char) (hA : ∀ c ∈ A, c ≠ '\n') :
    splitNl (A ++ '\n' :: B) = A :: splitNl B := by
  induction A with
  | nil => simp [splitNl]
  | cons c A ih =>
    have hc : c ≠ '\n' := hA c (List.mem_cons_self c A)
    rw [List.cons_append, splitNl, if_neg hc,
      ih (fun x hx => hA x (List.mem_cons_of_mem c hx))]

theorem dropCr_no_cr (l : List Char) (h : ∀ c ∈ l, c ≠ '\r') : dropCr l = l := by
  unfold dropCr
  cases hl : l.getLast? with
  | none => simp
  | some c =>
    have hc : c ∈ l := by
      obtain ⟨hne, heq⟩ := List.mem_getLast?_eq_getLast (Option.mem_def.mpr hl)
      rw [heq]
      exact List.getLast_mem hne
    rw [if_neg (by simpa using h c hc)]

theorem isBlankLine_stringify (v : Json) : isBlankLine (stringifyJ v) = false := by
  obtain ⟨c, t, hv, _, _, _, _, hjw⟩ := stringify_head v
  rw [hv]
  simp [isBlankLine, hjw]

/-- Round trip of the newline framing: `sendResponse` output, pushed back
through the line decoder, yields exactly the serialized envelope. -/
theorem decodeNl_encodeNl (r : MCPResponse) :
    decodeNlStream (encodeNl r) = [respToJson r] := by
  unfold decodeNlStream encodeNl
  rw [show stringifyJ (respToJson r) ++ ['\n']
    = stringifyJ (respToJson r) ++ '\n' :: [] from rfl]
  rw [splitNl_append _ [] (fun c hc => (stringifyJ_no_crlf (respToJson r) c hc).1)]
  rw [show splitNl [] = [[]] from rfl]
  rw [show (stringifyJ (respToJson r) :: [[]]).dropLast = [stringifyJ (respToJson r)] from rfl]
  rw [List.filterMap]
  rw [dropCr_no_cr _ (fun c hc => (stringifyJ_no_crlf (respToJson r) c hc).2)]
  dsimp only
  rw [if_neg (by rw [isBlankLine_stringify]; exact Bool.false_ne_true)]
  rw [show ({ data := stringifyJ (respToJson r) } : String)
    = stringifyText (respToJson r) from rfl]
  rw [parseTop_stringify (respToJson r)]
  rfl

/-! ### Length-prefixed framing -/

theorem matchPre_append (p rest : List Char) : matchPre p (p ++ rest) = some rest := by
  induction p with
  | nil => simp [matchPre]
  | cons c p ih => simp [matchPre, ih]

theorem matchHeaderAt_lp (n : Nat) (tail : List Char) :
    matchHeaderAt
      (("Content-Length: ").data ++ (natChars n ++ '\r' :: '\n' :: '\r' :: '\n' :: tail))
      = some (n, 16 + (natChars n).length + 4) := by
  unfold matchHeaderAt
  rw [matchPre_append]
  dsimp only
  obtain ⟨ht, hd⟩ := takeWhile_digits (natChars n) ('\r' :: '\n' :: '\r' :: '\n' :: tail)
    (natChars_all_digits n) (by rfl)
  rw [ht, hd]
  rw [if_neg (by simpa using natChars_ne_nil n)]
  rw [show lineEnd2 ('\r' :: '\n' :: '\r' :: '\n' :: tail) = some 4 from rfl]
  rw [digitsVal_natChars n]

theorem findHeader_lp (n : Nat) (tail : List Char) :
    findHeader
      (("Content-Length: ").data ++ (natChars n ++ '\r' :: '\n' :: '\r' :: '\n' :: tail)) 0
      = some (0, n, 16 + (natChars n).length + 4) := by
  show findHeader
    ('C' :: (("ontent-Length: ").data ++ (natChars n ++ '\r' :: '\n' :: '\r' :: '\n' :: tail)))
    0 = _
  rw [findHeader.eq_def]
  dsimp only
  rw [show ('C' :: (("ontent-Length: ").data
      ++ (natChars n ++ '\r' :: '\n' :: '\r' :: '\n' :: tail)))
    = ("Content-Length: ").data ++ (natChars n ++ '\r' :: '\n' :: '\r' :: '\n' :: tail)
    from rfl]
  rw [matchHeaderAt_lp n tail]

theorem tryParseAll_step (f : Nat) (buf : List Char) :
    tryParseAll (f + 1) buf =
      match findHeader buf 0 with
      | none => ([], buf)
      | some (i, n, hl) =>
        let total := i + hl + n
        if buf.length < total then ([], buf)
        else
          let msg := (buf.drop (i + hl)).take n
          let buf2 := buf.drop total
          let parsed := (parseTop (String.mk msg)).toList
          if buf2.length > 0 then
            let r := tryParseAll f buf2
            (parsed ++ r.1, r.2)
          else (parsed, buf2) := rfl

/-- Round trip of the legacy length-prefixed framing, under the assumption
that the serialized envelope is pure ASCII — i.e. its UTF-8 byte count (used
by the encoder) agrees with its character count (used by the decoder). -/
theorem lpDecode_lpEncode (r : MCPResponse)
    (hascii : utf8Len (stringifyJ (respToJson r)) = (stringifyJ (respToJson r)).length) :
    lpDecode (lpEncode r) = ([respToJson r], []) := by
  unfold lpDecode lpEncode
  dsimp only
  rw [hascii]
  set body := stringifyJ (respToJson r) with hbody
  set L := body.length with hL
  rw [List.append_assoc, List.append_assoc,
    show (['\r', '\n', '\r', '\n'] : List Char) ++ body = '\r' :: '\n' :: '\r' :: '\n' :: body
      from rfl]
  rw [tryParseAll_step]
  rw [findHeader_lp L body]
  dsimp only
  have h16 : (("Content-Length: ").data).length = 16 := rfl
  have hassoc : ("Content-Length: ").data ++ (natChars L ++ '\r' :: '\n' :: '\r' :: '\n' :: body)
      = (("Content-Length: ").data ++ natChars L ++ ['\r', '\n', '\r', '\n']) ++ body := by
    simp [List.append_assoc]
  have hHlen : ((("Content-Length: ").data ++ natChars L ++ ['\r', '\n', '\r', '\n'])).length
      = 16 + (natChars L).length + 4 := by
    simp [List.length_append, h16]
    omega
  have hlen : (("Content-Length: ").data
      ++ (natChars L ++ '\r' :: '\n' :: '\r' :: '\n' :: body)).length
      = 16 + ((natChars L).length + (4 + L)) := by
    simp [List.length_append, h16]
    omega
  rw [if_neg (by rw [hlen]; omega)]
  have hdrop2 : List.drop (0 + (16 + (natChars L).length + 4) + L)
      (("Content-Length: ").data ++ (natChars L ++ '\r' :: '\n' :: '\r' :: '\n' :: body))
      = [] := by
    rw [hassoc, show 0 + (16 + (natChars L).length + 4) + L
      = (("Content-Length: ").data ++ natChars L ++ ['\r', '\n', '\r', '\n']).length + L from by
        rw [hHlen]; omega]
    rw [List.drop_append L, hL, List.drop_length]
  have hdrop1 : List.drop (0 + (16 + (natChars L).length + 4))
      (("Content-Length: ").data ++ (natChars L ++ '\r' :: '\n' :: '\r' :: '\n' :: body))
      = body := by
    rw [hassoc, show 0 + (16 + (natChars L).length + 4)
      = (("Content-Length: ").data ++ natChars L ++ ['\r', '\n', '\r', '\n']).length from by
        rw [hHlen]; omega]
    exact List.drop_left _ body
  rw [hdrop2]
  rw [if_neg (by simp)]
  rw [hdrop1]
  rw [show List.take L body = body from by rw [hL]; exact List.take_length body]
  rw [show (String.mk body : String) = stringifyText (respToJson r) from rfl]
  rw [parseTop_stringify (respToJson r)]
  rfl

/-! ### Router and handler shape lemmas -/

theorem respOk_cases {rid : Option Json} {r : MCPResponse}
    (h : (∃ j, r = mkResult rid j) ∨ (∃ c m, r = mkError rid c m)) :
    r.id = rid ∧ ((r.result ≠ none ∧ r.error = none) ∨ (r.result = none ∧ r.error ≠ none)) := by
  rcases h with ⟨j, rfl⟩ | ⟨c, m, rfl⟩
  · exact ⟨rfl, Or.inl ⟨by simp [mkResult], rfl⟩⟩
  · exact ⟨rfl, Or.inr ⟨rfl, by simp [mkError]⟩⟩

theorem generateText_cases (conv : ConvMap) (rid : Option Json) (argsQ : Option ToolArgs)
    (oracle : Oracle) :
    (∃ j, (generateText conv rid argsQ oracle).2 = mkResult rid j) ∨
      (∃ c m, (generateText conv rid argsQ oracle).2 = mkError rid c m) := by
  unfold generateText
  rcases argsQ with _ | args
  · exact Or.inr ⟨_, _, rfl⟩
  · dsimp only
    rcases hm : lookupModel (strOr args.model ("gemini-2.5-flash")) with _ | info
    · exact Or.inr ⟨_, _, rfl⟩
    · dsimp only
      rcases hg : oracle.genCall (genRequestOf conv args info) with e | ok
      · exact Or.inr ⟨_, _, rfl⟩
      · exact Or.inl ⟨_, rfl⟩

theorem analyzeImage_cases (rid : Option Json) (argsQ : Option ToolArgs) (oracle : Oracle) :
    (∃ j, analyzeImage rid argsQ oracle = mkResult rid j) ∨
      (∃ c m, analyzeImage rid argsQ oracle = mkError rid c m) := by
  unfold analyzeImage
  rcases argsQ with _ | args
  · exact Or.inr ⟨_, _, rfl⟩
  · dsimp only
    rcases hv : oracle.visionCall (visionRequestOf args) with e | ok
    · exact Or.inr ⟨_, _, rfl⟩
    · exact Or.inl ⟨_, rfl⟩

theorem countTokens_cases (rid : Option Json) (argsQ : Option ToolArgs) (oracle : Oracle) :
    (∃ j, countTokens rid argsQ oracle = mkResult rid j) ∨
      (∃ c m, countTokens rid argsQ oracle = mkError rid c m) := by
  unfold countTokens
  rcases argsQ with _ | args
  · exact Or.inr ⟨_, _, rfl⟩
  · dsimp only
    rcases hv : oracle.countCall (countRequestOf args) with e | ok
    · exact Or.inr ⟨_, _, rfl⟩
    · exact Or.inl ⟨_, rfl⟩

theorem listModels_cases (rid : Option Json) (argsQ : Option ToolArgs) :
    (∃ j, listModels rid argsQ = mkResult rid j) ∨
      (∃ c m, listModels rid argsQ = mkError rid c m) :=
  Or.inl ⟨_, rfl⟩

theorem embedText_cases (rid : Option Json) (argsQ : Option ToolArgs) (oracle : Oracle) :
    (∃ j, embedText rid argsQ oracle = mkResult rid j) ∨
      (∃ c m, embedText rid argsQ oracle = mkError rid c m) := by
  unfold embedText
  rcases argsQ with _ | args
  · exact Or.inr ⟨_, _, rfl⟩
  · dsimp only
    rcases hv : oracle.embedCall ⟨strOr args.model ("text-embedding-004"), args.text⟩ with e | ok
    · exact Or.inr ⟨_, _, rfl⟩
    · exact Or.inl ⟨_, rfl⟩

theorem handleToolCall_cases (conv : ConvMap) (oracle : Oracle) (req : MCPRequest) :
    (∃ j, (handleToolCall conv oracle req).2 = mkResult req.id j) ∨
      (∃ c m, (handleToolCall conv oracle req).2 = mkError req.id c m) := by
  unfold handleToolCall
  dsimp only
  rcases hn : req.params.bind (fun p => p.name) with _ | s
  · exact Or.inr ⟨_, _, rfl⟩
  · dsimp only
    by_cases h1 : s = "generate_text"
    · rw [if_pos h1]
      exact generateText_cases conv req.id _ oracle
    rw [if_neg h1]
    by_cases h2 : s = "analyze_image"
    · rw [if_pos h2]
      exact analyzeImage_cases req.id _ oracle
    rw [if_neg h2]
    by_cases h3 : s = "count_tokens"
    · rw [if_pos h3]
      exact countTokens_cases req.id _ oracle
    rw [if_neg h3]
    by_cases h4 : s = "list_models"
    · rw [if_pos h4]
      exact listModels_cases req.id _
    rw [if_neg h4]
    by_cases h5 : s = "embed_text"
    · rw [if_pos h5]
      exact embedText_cases req.id _ oracle
    rw [if_neg h5]
    exact Or.inr ⟨_, _, rfl⟩

theorem handleRequest_spec (conv : ConvMap) (oracle : Oracle) (req : MCPRequest) :
    (knownMethod req.method = true →
      ∃ r, (handleRequest conv oracle req).2 = [r] ∧
        ((∃ j, r = mkResult req.id j) ∨ ∃ c m, r = mkError req.id c m)) ∧
    (knownMethod req.method = false →
      (handleRequest conv oracle req).2 = (match req.id with
        | none => []
        | some _ => [mkError req.id (-32601) ("Method not found")])) := by
  unfold handleRequest
  by_cases h1 : req.method = "initialize"
  · rw [if_pos h1]
    refine ⟨fun _ => ⟨_, rfl, Or.inl ⟨_, rfl⟩⟩, fun hk => ?_⟩
    simp [knownMethod, h1] at hk
  rw [if_neg h1]
  by_cases h2 : req.method = "tools/list"
  · rw [if_pos h2]
    refine ⟨fun _ => ⟨_, rfl, Or.inl ⟨_, rfl⟩⟩, fun hk => ?_⟩
    simp [knownMethod, h2] at hk
  rw [if_neg h2]
  by_cases h3 : req.method = "tools/call"
  · rw [if_pos h3]
    refine ⟨fun _ => ⟨_, rfl, handleToolCall_cases conv oracle req⟩, fun hk => ?_⟩
    simp [knownMethod, h3] at hk
  rw [if_neg h3]
  by_cases h4 : req.method = "resources/list"
  · rw [if_pos h4]
    refine ⟨fun _ => ⟨_, rfl, Or.inl ⟨_, rfl⟩⟩, fun hk => ?_⟩
    simp [knownMethod, h4] at hk
  rw [if_neg h4]
  by_cases h5 : req.method = "prompts/list"
  · rw [if_pos h5]
    refine ⟨fun _ => ⟨_, rfl, Or.inl ⟨_, rfl⟩⟩, fun hk => ?_⟩
    simp [knownMethod, h5] at hk
  rw [if_neg h5]
  constructor
  · intro hk
    simp [knownMethod, h1, h2, h3, h4, h5] at hk
  · intro _
    rcases req.id with _ | j
    · rfl
    · rfl

/-! ### Data-URL regex lemmas -/

theorem matchPre_sound : ∀ (p cs r : List Char), matchPre p cs = some r → cs = p ++ r := by
  intro p
  induction p with
  | nil =>
    intro cs r h
    simp only [matchPre] at h
    simp only [List.nil_append]
    exact Option.some.inj h
  | cons c p ih =>
    intro cs r h
    cases cs with
    | nil => exact absurd h (by simp [matchPre])
    | cons c2 cs =>
      simp only [matchPre] at h
      by_cases he : c = c2
      · rw [if_pos he] at h
        rw [List.cons_append, ← ih cs r h, he]
      · rw [if_neg he] at h
        exact absurd h (by simp)

theorem lastSplitB64_none : ∀ cs : List Char, (∀ a b, cs ≠ a ++ b64Delim ++ b) →
    lastSplitB64 cs = none := by
  intro cs
  induction cs with
  | nil => intro _; rfl
  | cons c rest ih =>
    intro h
    rw [lastSplitB64.eq_def]
    dsimp only
    rw [ih (fun a b hab => h (c :: a) b (by rw [hab]; simp))]
    cases hm : matchPre b64Delim (c :: rest) with
    | none => rfl
    | some b =>
      exact absurd (by simpa using matchPre_sound b64Delim (c :: rest) b hm) (h [] b)

theorem lastSplitB64_split : ∀ (m p : List Char), p ≠ [] → (';' ∉ p) →
    lastSplitB64 (m ++ b64Delim ++ p) = some (m, p) := by
  intro m
  induction m with
  | nil =>
    intro p hp hsemi
    show lastSplitB64 (';' :: (['b', 'a', 's', 'e', '6', '4', ','] ++ p)) = some ([], p)
    rw [lastSplitB64.eq_def]
    dsimp only
    rw [lastSplitB64_none (['b', 'a', 's', 'e', '6', '4', ','] ++ p) ?noOcc]
    · rw [show (';' :: (['b', 'a', 's', 'e', '6', '4', ','] ++ p)) = b64Delim ++ p from rfl,
        matchPre_append]
      dsimp only
      rw [if_neg (by simpa using hp)]
    case noOcc =>
      intro a b hab
      have hsm : ';' ∈ ['b', 'a', 's', 'e', '6', '4', ','] ++ p := by
        rw [hab]
        simp [b64Delim]
      rcases List.mem_append.mp hsm with h | h
      · simp at h
      · exact hsemi h
  | cons c m ih =>
    intro p hp hsemi
    show lastSplitB64 (c :: (m ++ b64Delim ++ p)) = some (c :: m, p)
    rw [lastSplitB64.eq_def]
    dsimp only
    rw [ih p hp hsemi]

theorem dataUrlMatch_parses (mime payload : String) (hm : mime.data ≠ [])
    (hp : payload.data ≠ []) (hsemi : ';' ∉ payload.data)
    (hdm : ∀ c ∈ mime.data, dotOk c = true) (hdp : ∀ c ∈ payload.data, dotOk c = true) :
    dataUrlMatch (("data:") ++ mime ++ (";base64,") ++ payload) = some (mime, payload) := by
  unfold dataUrlMatch
  rw [show ((("data:") ++ mime ++ (";base64,") ++ payload)).data
    = ("data:").data ++ (mime.data ++ (b64Delim ++ payload.data)) from by
      simp [String.data_append]
      rfl]
  rw [matchPre_append]
  dsimp only
  rw [show (mime.data ++ (b64Delim ++ payload.data)).all dotOk = true from by
    rw [List.all_eq_true]
    intro c hc
    rcases List.mem_append.mp hc with h | h
    · exact hdm c h
    · rcases List.mem_append.mp h with h | h
      · fin_cases h <;> rfl
      · exact hdp c h]
  rw [if_pos rfl]
  rw [show mime.data ++ (b64Delim ++ payload.data) = mime.data ++ b64Delim ++ payload.data from
    by simp [List.append_assoc]]
  rw [lastSplitB64_split mime.data payload.data hp hsemi]
  dsimp only
  rw [if_neg (by simpa using hm)]

theorem dataUrlMatch_noDataPre (s : String) (h : ∀ t, s.data ≠ ("data:").data ++ t) :
    dataUrlMatch s = none := by
  unfold dataUrlMatch
  cases hm : matchPre (("data:").data) s.data with
  | none => rfl
  | some rest => exact absurd (matchPre_sound _ _ _ hm) (h rest)

/-! ### Claim C1 — response accounting per request envelope -/

/-- C1 counterexample: the claim says an envelope with absent `id` (a
notification) produces zero response envelopes even for a known method.
The code's absent-id guard lives only in the `default` branch of the
method `switch`, so an `initialize` notification still gets a response:
one envelope is emitted, not zero. -/
theorem c1_counterexample :
    (handleRequest [] (okOracle ("x"))
      { id := none, method := "initialize", params := none }).2.length = 1 ∧
      (1 : Nat) ≠ 0 := by
  exact ⟨rfl, by decide⟩

/-- C1 (amended): a request with a present `id` gets exactly one response
envelope, and every emitted envelope carries that `id`; an envelope with
absent `id` gets zero responses exactly when its method is unknown — for
any of the five known methods one response is still emitted. -/
theorem c1_notification_accounting (conv : ConvMap) (oracle : Oracle)
    (req : MCPRequest) :
    (req.id ≠ none → (handleRequest conv oracle req).2.length = 1 ∧
      ∀ r ∈ (handleRequest conv oracle req).2, r.id = req.id) ∧
    (req.id = none → (handleRequest conv oracle req).2.length
      = (if knownMethod req.method = true then 1 else 0)) := by
  obtain ⟨hk, hu⟩ := handleRequest_spec conv oracle req
  constructor
  · intro hid
    cases hkm : knownMethod req.method with
    | true =>
      obtain ⟨r, hout, hcases⟩ := hk hkm
      rw [hout]
      refine ⟨rfl, ?_⟩
      intro x hx
      rw [List.mem_singleton] at hx
      subst hx
      exact (respOk_cases hcases).1
    | false =>
      rcases hi : req.id with _ | j
      · exact absurd hi hid
      · rw [hu hkm, hi]
        refine ⟨rfl, ?_⟩
        intro x hx
        rw [List.mem_singleton] at hx
        subst hx
        rfl
  · intro hid
    cases hkm : knownMethod req.method with
    | true =>
      obtain ⟨r, hout, _⟩ := hk hkm
      rw [hout]
      simp [hkm]
    | false =>
      rw [hu hkm, hid]
      simp [hkm]

/-- C1 witness: a `tools/list` request with id 7 yields one envelope; a
notification with the unknown method `bogus/method` yields none. -/
theorem c1_witness :
    (handleRequest [] (okOracle ("x"))
      { id := some (Json.num 7), method := "tools/list", params := none }).2.length = 1 ∧
    (handleRequest [] (okOracle ("x"))
      { id := none, method := "bogus/method", params := none }).2.length = 0 := by
  constructor
  · exact ((c1_notification_accounting [] (okOracle ("x"))
      { id := some (Json.num 7), method := "tools/list", params := none }).1
        (by simp)).1
  · have h := (c1_notification_accounting [] (okOracle ("x"))
      { id := none, method := "bogus/method", params := none }).2 rfl
    rw [h]
    rfl

/-! ### Claim C2 — response envelope well-formedness -/

/-- C2: every envelope the router emits carries exactly one of `result` or
`error` — never both, never neither — and its `id` equals the id of the
request that triggered it. -/
theorem c2_response_well_formed (conv : ConvMap) (oracle : Oracle)
    (req : MCPRequest) (r : MCPResponse)
    (hr : r ∈ (handleRequest conv oracle req).2) :
    ((r.result ≠ none ∧ r.error = none) ∨ (r.result = none ∧ r.error ≠ none)) ∧
      r.id = req.id := by
  obtain ⟨hk, hu⟩ := handleRequest_spec conv oracle req
  cases hkm : knownMethod req.method with
  | true =>
    obtain ⟨r2, hout, hcases⟩ := hk hkm
    rw [hout, List.mem_singleton] at hr
    subst hr
    obtain ⟨hid, hx⟩ := respOk_cases hcases
    exact ⟨hx, hid⟩
  | false =>
    rcases hi : req.id with _ | j
    · rw [hu hkm, hi] at hr
      simp at hr
    · rw [hu hkm, hi] at hr
      simp at hr
      subst hr
      refine ⟨Or.inr ⟨rfl, by simp [mkError]⟩, rfl⟩

/-- C2 witness: the method-not-found envelope for an unknown method with
id `null` has an `error`, no `result`, and mirrors the request id. -/
theorem c2_witness :
    (((mkError (some Json.null) (-32601) ("Method not found")).result ≠ none ∧
        (mkError (some Json.null) (-32601) ("Method not found")).error = none) ∨
      ((mkError (some Json.null) (-32601) ("Method not found")).result = none ∧
        (mkError (some Json.null) (-32601) ("Method not found")).error ≠ none)) ∧
      (mkError (some Json.null) (-32601) ("Method not found")).id = some Json.null :=
  c2_response_well_formed [] (okOracle ("x"))
    { id := some Json.null, method := "nope", params := none }
    (mkError (some Json.null) (-32601) ("Method not found")) (List.Mem.head _)

/-! ### Claim C3 — error code classification -/

/-- C3 counterexample: the claim says an unknown tool name is surfaced with
the internal-error code -32603; the code answers `Unknown tool: bogus` with
the method-not-found code -32601 instead. -/
theorem c3_counterexample :
    (handleToolCall [] (okOracle ("x"))
      { id := some (Json.num 1), method := "tools/call",
        params := some { name := some ("bogus"), arguments := none } }).2.error
      = some { code := -32601, message := "Unknown tool: bogus" } ∧
      (-32601 : Int) ≠ -32603 := by
  exact ⟨rfl, by decide⟩

/-- C3 (amended): an unknown top-level method with a present id yields the
method-not-found code -32601; an unknown TOOL name also yields -32601 (with
message naming the tool), not -32603. No schema validation runs; the
remaining failures all surface as -32603, told apart only by message text:
an absent arguments object makes each of the four provider-calling handlers
throw its own TypeError (reading `model` of `undefined`), caught as -32603,
and a provider-side exception in any of `generate_text` (on a known model),
`analyze_image`, `count_tokens` or `embed_text` is surfaced as -32603 with
the provider's message. -/
theorem c3_error_codes (conv : ConvMap) (oracle : Oracle) :
    (∀ req : MCPRequest, knownMethod req.method = false → req.id ≠ none →
      (handleRequest conv oracle req).2
        = [mkError req.id (-32601) ("Method not found")]) ∧
    (∀ req : MCPRequest, ∀ s : String,
      (req.params.bind fun p => p.name) = some s →
      s ≠ "generate_text" → s ≠ "analyze_image" → s ≠ "count_tokens" →
      s ≠ "list_models" → s ≠ "embed_text" →
      (handleToolCall conv oracle req).2
        = mkError req.id (-32601) ("Unknown tool: " ++ s)) ∧
    (∀ rid,
      (generateText conv rid none oracle).2
        = mkError rid (-32603) ("Cannot read properties of undefined (reading 'model')") ∧
      analyzeImage rid none oracle
        = mkError rid (-32603) ("Cannot read properties of undefined (reading 'model')") ∧
      countTokens rid none oracle
        = mkError rid (-32603) ("Cannot read properties of undefined (reading 'model')") ∧
      embedText rid none oracle
        = mkError rid (-32603) ("Cannot read properties of undefined (reading 'model')")) ∧
    (∀ rid args e,
      (∀ info, lookupModel (strOr args.model ("gemini-2.5-flash")) = some info →
        oracle.genCall (genRequestOf conv args info) = Except.error e →
        (generateText conv rid (some args) oracle).2 = mkError rid (-32603) e) ∧
      (oracle.visionCall (visionRequestOf args) = Except.error e →
        analyzeImage rid (some args) oracle = mkError rid (-32603) e) ∧
      (oracle.countCall (countRequestOf args) = Except.error e →
        countTokens rid (some args) oracle = mkError rid (-32603) e) ∧
      (oracle.embedCall ⟨strOr args.model ("text-embedding-004"), args.text⟩
          = Except.error e →
        embedText rid (some args) oracle = mkError rid (-32603) e)) := by
  refine ⟨?_, ?_, fun rid => ⟨rfl, rfl, rfl, rfl⟩, ?_⟩
  · intro req hkm hid
    obtain ⟨_, hu⟩ := handleRequest_spec conv oracle req
    rw [hu hkm]
    rcases hi : req.id with _ | j
    · exact absurd hi hid
    · rfl
  · intro req s hn h1 h2 h3 h4 h5
    unfold handleToolCall
    dsimp only
    rw [hn]
    dsimp only
    rw [if_neg h1, if_neg h2, if_neg h3, if_neg h4, if_neg h5]
  · intro rid args e
    refine ⟨?_, ?_, ?_, ?_⟩
    · intro info hm hg
      unfold generateText
      dsimp only
      rw [hm]
      dsimp only
      rw [hg]
    · intro hv
      unfold analyzeImage
      dsimp only
      rw [hv]
    · intro hcnt
      unfold countTokens
      dsimp only
      rw [hcnt]
    · intro hemb
      unfold embedText
      dsimp only
      rw [hemb]

/-- C3 witness: every classification at a concrete input — unknown method
`upgrade` with id 1, unknown tool `frobnicate`, absent arguments for each
of the four provider-calling tools, and a provider failure `boom` for each
of them (generate on the default model). -/
theorem c3_witness :
    (handleRequest [] (errOracle ("boom"))
      { id := some (Json.num 1), method := "upgrade", params := none }).2
      = [mkError (some (Json.num 1)) (-32601) ("Method not found")] ∧
    (handleToolCall [] (errOracle ("boom"))
      { id := some (Json.num 2), method := "tools/call",
        params := some { name := some ("frobnicate"), arguments := none } }).2
      = mkError (some (Json.num 2)) (-32601) ("Unknown tool: frobnicate") ∧
    (generateText [] (some (Json.num 3)) none (errOracle ("boom"))).2
      = mkError (some (Json.num 3)) (-32603)
          ("Cannot read properties of undefined (reading 'model')") ∧
    analyzeImage (some (Json.num 3)) none (errOracle ("boom"))
      = mkError (some (Json.num 3)) (-32603)
          ("Cannot read properties of undefined (reading 'model')") ∧
    countTokens (some (Json.num 3)) none (errOracle ("boom"))
      = mkError (some (Json.num 3)) (-32603)
          ("Cannot read properties of undefined (reading 'model')") ∧
    embedText (some (Json.num 3)) none (errOracle ("boom"))
      = mkError (some (Json.num 3)) (-32603)
          ("Cannot read properties of undefined (reading 'model')") ∧
    (generateText [] (some (Json.num 4)) (some { prompt := some ("p") })
      (errOracle ("boom"))).2 = mkError (some (Json.num 4)) (-32603) ("boom") ∧
    analyzeImage (some (Json.num 5)) (some { prompt := some ("p") }) (errOracle ("boom"))
      = mkError (some (Json.num 5)) (-32603) ("boom") ∧
    countTokens (some (Json.num 6)) (some { text := some ("t") }) (errOracle ("boom"))
      = mkError (some (Json.num 6)) (-32603) ("boom") ∧
    embedText (some (Json.num 7)) (some { text := some ("t") }) (errOracle ("boom"))
      = mkError (some (Json.num 7)) (-32603) ("boom") := by
  obtain ⟨ha, hb, hc, hd⟩ := c3_error_codes [] (errOracle ("boom"))
  refine ⟨ha { id := some (Json.num 1), method := "upgrade", params := none }
      (by decide) (by simp), ?_,
    (hc (some (Json.num 3))).1, (hc (some (Json.num 3))).2.1,
    (hc (some (Json.num 3))).2.2.1, (hc (some (Json.num 3))).2.2.2, ?_, ?_, ?_, ?_⟩
  · exact hb ⟨some (Json.num 2), "tools/call", some ⟨some ("frobnicate"), none⟩⟩
      ("frobnicate") rfl (by decide) (by decide) (by decide) (by decide) (by decide)
  · exact (hd (some (Json.num 4)) { prompt := some ("p") } ("boom")).1
      { description := "Fast thinking model with best price/performance ratio"
        features := [("thinking"), ("function_calling"), ("json_mode"), ("grounding"),
          ("system_instructions")]
        contextWindow := 1000000
        thinking := some true } (by rfl) (by rfl)
  · exact (hd (some (Json.num 5)) { prompt := some ("p") } ("boom")).2.1 rfl
  · exact (hd (some (Json.num 6)) { text := some ("t") } ("boom")).2.2.1 rfl
  · exact (hd (some (Json.num 7)) { text := some ("t") } ("boom")).2.2.2 rfl

/-! ### Claim C4 — conversation history threading -/

/-- C4: two successful `generate_text` calls with conversation id `s1`. The
prepend-before-provider-call half of the claim holds: the second provider
call's context is the stored history plus one new user turn, in order. But
the append-on-success half fails: the code writes back
`history ++ requestBody.contents ++ [modelTurn]`, and `requestBody.contents`
already begins with that same history, so after the second call the session
holds six turns — the first exchange duplicated — instead of the four the
claim requires. -/
theorem c4_history_duplication :
    let args1 : ToolArgs := { prompt := some ("u1"), conversationId := some ("s1") }
    let args2 : ToolArgs := { prompt := some ("u2"), conversationId := some ("s1") }
    let s1 := (generateText [] (some (Json.num 1)) (some args1) (okOracle ("m1"))).1
    let s2 := (generateText s1 (some (Json.num 2)) (some args2) (okOracle ("m2"))).1
    getConv s1 ("s1") = some [userTurn args1, modelTurn ("m1")] ∧
    genContents s1 args2 = [userTurn args1, modelTurn ("m1"), userTurn args2] ∧
    getConv s2 ("s1") = some [userTurn args1, modelTurn ("m1"),
      userTurn args1, modelTurn ("m1"), userTurn args2, modelTurn ("m2")] ∧
    [userTurn args1, modelTurn ("m1"), userTurn args1, modelTurn ("m1"),
      userTurn args2, modelTurn ("m2")].length ≠
      ([userTurn args1, modelTurn ("m1")] ++ [userTurn args2, modelTurn ("m2")]).length := by
  exact ⟨rfl, rfl, rfl, by decide⟩

/-! ### Claim C5 — failed provider call leaves history untouched -/

/-- C5: when every provider call fails, `generate_text` returns the
conversation map unchanged — in particular a failed first call leaves the
session absent — and the response is an error envelope (no result). -/
theorem c5_failed_call_preserves_history (conv : ConvMap) (rid : Option Json)
    (argsQ : Option ToolArgs) (oracle : Oracle) (e : String)
    (hfail : ∀ q, oracle.genCall q = Except.error e) :
    (generateText conv rid argsQ oracle).1 = conv ∧
      (generateText conv rid argsQ oracle).2.result = none := by
  unfold generateText
  rcases argsQ with _ | args
  · exact ⟨rfl, rfl⟩
  · dsimp only
    rcases hm : lookupModel (strOr args.model ("gemini-2.5-flash")) with _ | info
    · exact ⟨rfl, rfl⟩
    · dsimp only
      rw [hfail (genRequestOf conv args info)]
      exact ⟨rfl, rfl⟩

/-- C5 witness: a failing provider (`boom`) on a first call with
conversation id `s1` leaves the empty conversation map empty and returns
an envelope with no result. -/
theorem c5_witness :
    (generateText [] (some (Json.num 1))
      (some { prompt := some ("u1"), conversationId := some ("s1") })
      (errOracle ("boom"))).1 = [] ∧
    (generateText [] (some (Json.num 1))
      (some { prompt := some ("u1"), conversationId := some ("s1") })
      (errOracle ("boom"))).2.result = none :=
  c5_failed_call_preserves_history [] (some (Json.num 1))
    (some { prompt := some ("u1"), conversationId := some ("s1") })
    (errOracle ("boom")) ("boom") (fun _ => rfl)

/-! ### Claim C6 — image source validation -/

/-- C6 counterexample: the claim says the exactly-one-of image-source group
is enforced before execution — never both. A call giving BOTH `imageUrl`
and `imageBase64` is not rejected: it succeeds, the URL silently winning. -/
theorem c6_counterexample :
    (analyzeImage (some (Json.num 3))
      (some { prompt := some ("p"), imageUrl := some ("http://x/i.png"),
              imageBase64 := some ("AAAA") }) (okOracle ("ok"))).error = none ∧
    (analyzeImage (some (Json.num 3))
      (some { prompt := some ("p"), imageUrl := some ("http://x/i.png"),
              imageBase64 := some ("AAAA") }) (okOracle ("ok"))).result.isSome = true := by
  exact ⟨rfl, rfl⟩

/-- C6 (amended): no schema validation happens before the handler runs; the
image-source group is decided by JS truthiness. A truthy `imageUrl` always
wins, producing a text placeholder part and silently ignoring any
`imageBase64`; with both image arguments absent or falsy, no image part is
built (an `undefined` sits in the parts array), the provider is still
called with that request, and only a provider-side failure then surfaces
as an internal-error (-32603) envelope. -/
theorem c6_image_source_handling (rid : Option Json) (args : ToolArgs)
    (oracle : Oracle) :
    (strTruthy args.imageUrl = true →
      imagePartOf args
        = some { text := some ("[Image URL: " ++ args.imageUrl.getD "" ++ "]"),
                 inlineData := none }) ∧
    (strTruthy args.imageUrl = false → strTruthy args.imageBase64 = false →
      imagePartOf args = none ∧
      visionRequestOf args
        = { model := strOr args.model ("gemini-2.5-flash")
            contents := [{ parts := [some { text := args.prompt }, none] }] } ∧
      ∀ e, oracle.visionCall (visionRequestOf args) = Except.error e →
        analyzeImage rid (some args) oracle = mkError rid (-32603) e) := by
  constructor
  · intro h
    unfold imagePartOf
    rw [if_pos h]
  · intro h1 h2
    have hip : imagePartOf args = none := by
      unfold imagePartOf
      rw [if_neg (by simp [h1]), if_neg (by simp [h2])]
    refine ⟨hip, ?_, ?_⟩
    · unfold visionRequestOf
      rw [hip]
    · intro e he
      unfold analyzeImage
      dsimp only
      rw [he]

/-- C6 witness: with both image arguments absent the part is `undefined`,
and a failing provider (`bad`) turns into a -32603 envelope. -/
theorem c6_witness :
    imagePartOf { prompt := some ("p") } = none ∧
    analyzeImage (some (Json.num 5)) (some { prompt := some ("p") })
      (errOracle ("bad")) = mkError (some (Json.num 5)) (-32603) ("bad") := by
  obtain ⟨-, h2⟩ := c6_image_source_handling (some (Json.num 5))
    { prompt := some ("p") } (errOracle ("bad"))
  obtain ⟨ha, -, hc⟩ := h2 rfl rfl
  exact ⟨ha, hc ("bad") rfl⟩

/-! ### Claim C7 — data-URL prefix parsing with default mime type -/

/-- C7: inline image data wrapped in a `data:<mimeType>;base64,<payload>`
prefix — with regex-matchable components: nonempty, free of line
terminators, no `;` inside the payload — is parsed into its mime type and
raw payload; inline data that does not start with `data:` is passed
through whole under the default `image/jpeg` mime type, and the call still
succeeds when the provider does. -/
theorem c7_data_url_parsing (args : ToolArgs) (rid : Option Json) (oracle : Oracle) :
    (∀ mime payload : String,
      strTruthy args.imageUrl = false →
      args.imageBase64 = some (("data:") ++ mime ++ (";base64,") ++ payload) →
      mime.data ≠ [] → payload.data ≠ [] → (';' ∉ payload.data) →
      (∀ c ∈ mime.data, dotOk c = true) → (∀ c ∈ payload.data, dotOk c = true) →
      imagePartOf args
        = some { text := none, inlineData := some { mimeType := mime, data := payload } }) ∧
    (∀ s : String, strTruthy args.imageUrl = false → args.imageBase64 = some s →
      s ≠ "" → (∀ t, s.data ≠ ("data:").data ++ t) →
      imagePartOf args
        = some { text := none, inlineData := some { mimeType := "image/jpeg", data := s } } ∧
      ∀ ok, oracle.visionCall (visionRequestOf args) = Except.ok ok →
        (analyzeImage rid (some args) oracle).error = none) := by
  constructor
  · intro mime payload hiu hb64 hm hp hsemi hdm hdp
    have hdata : ((("data:") ++ mime ++ (";base64,") ++ payload)).data
        = ("data:").data ++ (mime.data ++ (b64Delim ++ payload.data)) := by
      simp [String.data_append]
      rfl
    have hne : (("data:") ++ mime ++ (";base64,") ++ payload) ≠ "" := by
      intro hh
      have h0 := congrArg String.data hh
      rw [hdata] at h0
      rw [show ("data:").data = 'd' :: ['a', 't', 'a', ':'] from rfl] at h0
      simp at h0
    unfold imagePartOf
    rw [if_neg (by simp [hiu])]
    rw [if_pos (by rw [hb64]; simpa [strTruthy] using hne)]
    dsimp only
    rw [hb64]
    dsimp only [Option.getD]
    rw [dataUrlMatch_parses mime payload hm hp hsemi hdm hdp]
  · intro s hiu hb64 hne hpre
    have hip : imagePartOf args
        = some { text := none, inlineData := some { mimeType := "image/jpeg", data := s } } := by
      unfold imagePartOf
      rw [if_neg (by simp [hiu])]
      rw [if_pos (by rw [hb64]; simpa [strTruthy] using hne)]
      dsimp only
      rw [hb64]
      dsimp only [Option.getD]
      rw [dataUrlMatch_noDataPre s hpre]
    refine ⟨hip, ?_⟩
    intro ok hok
    unfold analyzeImage
    dsimp only
    rw [hok]
    rfl

/-- C7 witness: `data:image/png;base64,iVBOR` is split into mime type
`image/png` and payload `iVBOR`; bare `iVBOR` keeps the whole string under
the default `image/jpeg` mime type and the call succeeds. -/
theorem c7_witness :
    imagePartOf { imageBase64 := some ("data:image/png;base64,iVBOR") }
      = some { text := none,
               inlineData := some { mimeType := "image/png", data := "iVBOR" } } ∧
    imagePartOf { imageBase64 := some ("iVBOR") }
      = some { text := none,
               inlineData := some { mimeType := "image/jpeg", data := "iVBOR" } } ∧
    (analyzeImage (some (Json.num 6)) (some { imageBase64 := some ("iVBOR") })
      (okOracle ("described"))).error = none := by
  have h1 := (c7_data_url_parsing { imageBase64 := some ("data:image/png;base64,iVBOR") }
    (some (Json.num 6)) (okOracle ("described"))).1 ("image/png") ("iVBOR")
    rfl (by decide) (by decide) (by decide) (by decide) (by decide) (by decide)
  have h2 := (c7_data_url_parsing { imageBase64 := some ("iVBOR") }
    (some (Json.num 6)) (okOracle ("described"))).2 ("iVBOR") rfl rfl (by decide)
    (by
      intro t h
      rw [show ("iVBOR").data = 'i' :: ['V', 'B', 'O', 'R'] from rfl,
        show ("data:").data = 'd' :: ['a', 't', 'a', ':'] from rfl,
        List.cons_append] at h
      injection h with hh _
      exact absurd hh (by decide))
  exact ⟨h1, h2.1, h2.2 { text := some ("described") } rfl⟩

/-! ### Claim C8 — model list filtering -/

/-- C8: the `thinking` capability filter keeps exactly the catalog entries
whose thinking flag is `true`, and any filter value outside the recognized
set (`all`, `thinking`, `vision`, `grounding`, `json_mode`) falls through
the `switch` default and returns the full catalog. -/
theorem c8_list_models_filtering :
    filteredModels ("thinking")
      = GEMINI_MODELS.filter (fun p => p.2.thinking == some true) ∧
    ∀ f : String, f ≠ "all" → f ≠ "thinking" → f ≠ "vision" → f ≠ "grounding" →
      f ≠ "json_mode" → filteredModels f = GEMINI_MODELS := by
  constructor
  · rfl
  · intro f h0 h1 h2 h3 h4
    unfold filteredModels
    rw [if_neg h0]
    apply List.filter_eq_self.mpr
    intro p _
    unfold modelMatches
    rw [if_neg h1, if_neg h2, if_neg h3, if_neg h4]

/-- C8 witness: the unrecognized filter `bogus` returns the full catalog,
and the `thinking` filter keeps exactly the three 2.5-generation models. -/
theorem c8_witness :
    filteredModels ("bogus") = GEMINI_MODELS ∧
    (filteredModels ("thinking")).map Prod.fst
      = [("gemini-2.5-pro"), ("gemini-2.5-flash"), ("gemini-2.5-flash-lite")] := by
  refine ⟨(c8_list_models_filtering).2 ("bogus") (by decide) (by decide) (by decide)
    (by decide) (by decide), ?_⟩
  rfl

/-! ### Claim C9 — framing round trip -/

/-- C9 counterexample: the legacy length-prefixed framing does not round
trip every envelope: its encoder counts UTF-8 bytes while its decoder
counts characters, so the envelope carrying the one-character string `é`
decodes to nothing instead of to itself. -/
theorem c9_counterexample :
    (lpDecode (lpEncode (mkResult (some (Json.num 1)) (Json.str ("é"))))).1 = [] ∧
    ([] : List Json) ≠ [respToJson (mkResult (some (Json.num 1)) (Json.str ("é")))] := by
  exact ⟨rfl, by simp⟩

/-- C9 (amended): the enhanced server's active newline framing round trips
every envelope: encoding then line-decoding yields exactly the serialized
envelope. The legacy length-prefixed framing round trips only envelopes
whose serialization is pure ASCII — when the encoder's UTF-8 byte count
agrees with the decoder's character count. -/
theorem c9_framing_roundtrip (r : MCPResponse) :
    decodeNlStream (encodeNl r) = [respToJson r] ∧
    (utf8Len (stringifyJ (respToJson r)) = (stringifyJ (respToJson r)).length →
      lpDecode (lpEncode r) = ([respToJson r], [])) :=
  ⟨decodeNl_encodeNl r, fun h => lpDecode_lpEncode r h⟩

/-- C9 witness: the ASCII envelope carrying `ok` round trips under both
framings. -/
theorem c9_witness :
    decodeNlStream (encodeNl (mkResult (some (Json.num 1)) (Json.str ("ok"))))
      = [respToJson (mkResult (some (Json.num 1)) (Json.str ("ok")))] ∧
    lpDecode (lpEncode (mkResult (some (Json.num 1)) (Json.str ("ok"))))
      = ([respToJson (mkResult (some (Json.num 1)) (Json.str ("ok")))], []) := by
  have h := c9_framing_roundtrip (mkResult (some (Json.num 1)) (Json.str ("ok")))
  exact ⟨h.1, h.2 rfl⟩

/-! ### Claim C10 — unknown model short-circuits generate_text -/

/-- C10: when the requested model (after the `gemini-2.5-flash` default) is
not in the catalog, `generate_text` returns the conversation map unchanged
and an internal-error envelope naming the unknown model; the right-hand
side does not depend on the oracle, so no provider call is made. -/
theorem c10_unknown_model (conv : ConvMap) (rid : Option Json) (args : ToolArgs)
    (oracle : Oracle)
    (hu : lookupModel (strOr args.model ("gemini-2.5-flash")) = none) :
    generateText conv rid (some args) oracle
      = (conv, mkError rid (-32603)
          ("Unknown model: " ++ strOr args.model ("gemini-2.5-flash"))) := by
  unfold generateText
  dsimp only
  rw [hu]

/-- C10 witness: asking for `gpt-4` yields the unknown-model error, leaves
the conversation map empty, and the all-succeeding oracle is never
consulted. -/
theorem c10_witness :
    generateText [] (some (Json.num 9))
      (some { prompt := some ("p"), model := some ("gpt-4") }) (okOracle ("never"))
      = ([], mkError (some (Json.num 9)) (-32603) ("Unknown model: gpt-4")) :=
  c10_unknown_model [] (some (Json.num 9))
    { prompt := some ("p"), model := some ("gpt-4") } (okOracle ("never")) (by decide)
